import Mathlib

/-!
Verification of the talang language pipeline (lexer, parser, tree-walking
evaluator, bytecode compiler and stack VM) against its specification.

The Go sources are shallowly embedded: Go `float64` numbers are modelled as
rationals (no claim under scrutiny depends on floating-point rounding, infinity
or NaN), Go maps as association lists, and Go pointer identity of
reference-flavoured values (arrays, functions, classes, instances, and the
freshly allocated `&valuer.Nil{}` results of builtins) as allocation
identifiers drawn from heaps threaded through an explicit state.  Go panics
that the interpreter's `recover` turns into errors are modelled with `Except`.
Source-token positions (line/column) are not tracked: no verified claim
mentions them.
-/

namespace Talang

/-- Token kinds, embedding the constants of `token/token.go` (the Go
implementation represents them as strings; the set of kinds is identical). -/
inductive TokenType where
  | illegal | eof
  | identifier | number | strT
  | assign | plus | minus | bang | asterisk | slash
  | equal | notEqual | orK | andK
  | lessThanEqual | lessThan | greaterThanEqual | greaterThan
  | comma | semicolon | dot
  | leftParen | rightParen | leftBrace | rightBrace | leftBracket | rightBracket
  | classK | thisK | superK | functionK | letK | trueK | falseK | nilK
  | ifK | elseK | whileK | returnK | printK | forK
deriving DecidableEq, Repr

/-- A token: kind and literal, from `token/token.go`.  The `Position`
field (line/column) is omitted: no settled claim depends on positions. -/
structure Token where
  type : TokenType
  literal : String
deriving DecidableEq, Repr

/-- The keyword table `keywords` of `token/token.go`. -/
def keywords : List (String × TokenType) :=
  [("class", .classK), ("this", .thisK), ("super", .superK), ("fn", .functionK),
   ("let", .letK), ("true", .trueK), ("false", .falseK), ("nil", .nilK),
   ("if", .ifK), ("else", .elseK), ("while", .whileK), ("return", .returnK),
   ("print", .printK), ("or", .orK), ("and", .andK), ("for", .forK)]

/-- `token.LookupIdentifier`: keyword lookup with `Identifier` fallback. -/
def lookupIdentifier (s : String) : TokenType :=
  match keywords.lookup s with
  | some t => t
  | none => .identifier

mutual

/-- Expressions of `ast/ast.go`.  `nilE` is the Go `nil` interface value of
type `ast.Expr` (the parser's `primary` can produce it).  `VariableExpr`'s
unused `Distance` field and the unused stored tokens of `ArrayExpr` are
omitted. -/
inductive Expr where
  | nilE
  | literal (tok : Token) (value : String)
  | binary (left : Expr) (operator : Token) (right : Expr)
  | grouping (expression : Expr)
  | logical (left : Expr) (operator : Token) (right : Expr)
  | unary (operator : Token) (right : Expr)
  | var (name : String)
  | arrayE (elements : List Expr)
  | assignE (name : String) (value : Expr)
  | get (name : Token) (obj : Expr)
  | setE (name : Token) (obj : Expr) (value : Expr)
  | thisE (keyword : Token)
  | superE (keyword : Token) (method : Token)
  | callE (callee : Expr) (arguments : List Expr)
deriving Repr

/-- Statements of `ast/ast.go`.  `nilS` is a Go `nil` `ast.Stmt` (an absent
`else` branch).  `ClassStmt.SuperClass` is a `VariableExpr` struct whose
zero value has `Name == ""`; it is embedded as the name string.  A class's
methods are `FunctionStmt`s, embedded as `Stmt.functionStmt` entries. -/
inductive Stmt where
  | nilS
  | printS (expression : Expr)
  | exprStmt (expression : Expr)
  | varStmt (ident : String) (initializer : Expr)
  | block (statements : List Stmt)
  | ifS (condition : Expr) (thenBranch : Stmt) (elseBranch : Stmt)
  | whileS (condition : Expr) (body : Stmt)
  | functionStmt (name : String) (params : List String) (body : List Stmt)
      (isInitializer : Bool)
  | returnStmt (value : Expr)
  | classStmt (name : String) (superClass : String) (methods : List Stmt)
deriving Repr

end

/-- `ast.Program` is an ordered sequence of top-level statements. -/
abbrev Program := List Stmt

/-- The builtins installed by `interpreter.New` (`valuer/builtins.go`). -/
inductive BuiltinKind where
  | clockB | atB | lenB | pushB | restB
deriving DecidableEq, Repr

/-- Runtime values (`valuer` package).  Reference-flavoured variants
(`Array`, `Function`, `Klass`, `Instance`) carry allocation identifiers into
the heaps of `IState`; Go compares them by pointer identity.  `nilV none` is
the interpreter package's canonical `Nil` singleton, `nilV (some k)` a
distinct `&valuer.Nil{}` allocation (builtins create these).  All Booleans the
evaluator produces are the two canonical singletons, so `boolean` carries only
its payload.  `ret` is the internal `Return` control-flow wrapper, `goNil`
the Go `nil` interface value (uninitialized stack/globals slots in the VM),
and `compiledFnV` a `valuer.CompiledFunction` (VM back-end only). -/
inductive Value where
  | number (value : ℚ)
  | boolean (value : Bool)
  | nilV (alloc : Option Nat)
  | strV (value : String)
  | ret (value : Value)
  | arrayV (id : Nat)
  | fnV (id : Nat)
  | klassV (id : Nat)
  | instV (id : Nat)
  | builtinV (b : BuiltinKind)
  | goNil
  | compiledFnV (instructions : List Nat) (numLocals : Nat) (numParameters : Nat)
deriving DecidableEq, Repr

/-- `Value.Type()` tags (`valuer.ValueType` strings).  Calling `Type()` on a
Go `nil` interface would panic; `goNil` is given a marker tag that no source
comparison ever matches. -/
def Value.typeTag : Value → String
  | .number _ => "Number"
  | .boolean _ => "Boolean"
  | .nilV _ => "Nil"
  | .strV _ => "String"
  | .ret _ => "Return"
  | .arrayV _ => "Array"
  | .fnV _ => "Function"
  | .klassV _ => "Klass"
  | .instV _ => "Instance"
  | .builtinV _ => "Builtin"
  | .goNil => "<go nil>"
  | .compiledFnV _ _ _ => "CompiledFunction"

/-- Propositional equality on `Except` results is decidable componentwise
(used to settle concrete executions by `decide`). -/
instance exceptDecEq {e a : Type} [DecidableEq e] [DecidableEq a] :
    DecidableEq (Except e a) := fun x y =>
  match x, y with
  | .ok u, .ok v =>
    if h : u = v then .isTrue (by rw [h]) else .isFalse (by simp [h])
  | .error u, .error v =>
    if h : u = v then .isTrue (by rw [h]) else .isFalse (by simp [h])
  | .ok _, .error _ => .isFalse (by simp)
  | .error _, .ok _ => .isFalse (by simp)

/-- Association-list lookup (a Go map read). -/
def alookup {α : Type} : List (String × α) → String → Option α
  | [], _ => none
  | (k, v) :: rest, key => if k = key then some v else alookup rest key

/-- Association-list update (a Go map write: overwrite or insert). -/
def aset {α : Type} : List (String × α) → String → α → List (String × α)
  | [], key, v => [(key, v)]
  | (k, w) :: rest, key, v =>
      if k = key then (k, v) :: rest else (k, w) :: aset rest key v

/-- `valuer.Environment`: a binding table with an optional enclosing parent
(the parent is an environment identifier into `IState.envs`). -/
structure Env where
  values : List (String × Value)
  enclosing : Option Nat
deriving Repr

/-- A `valuer.Function` value: name, parameters, body, captured closure
environment (by identifier) and the initializer flag. -/
structure FunData where
  name : String
  params : List String
  body : List Stmt
  closure : Nat
  isInitializer : Bool
deriving Repr

/-- A `valuer.Klass` value: its name and method table.  Faithful to
`valuer` (`src/unnamed/part_010`): the struct has no superclass field. -/
structure KlassData where
  name : String
  methods : List (String × FunData)
deriving Repr

/-- A `valuer.Instance`: its class (by identifier) and private field table. -/
structure InstData where
  klass : Nat
  fields : List (String × Value)
deriving Repr

/-- Interpreter state: the heaps backing reference values, the allocation
counter for fresh `&valuer.Nil{}` values, the current environment identifier
(`Interpreter.env`) and the accumulated stdout lines. -/
structure IState where
  envs : List Env
  fns : List FunData
  klasses : List KlassData
  insts : List InstData
  arrays : List (List Value)
  nilAllocs : Nat
  cur : Nat
  output : List String
deriving Repr

/-- Runtime error (`runtimeError` / `NewRuntimeError`).  Modelled from the
spec: `interpreter.NewRuntimeError` is not under `src/`; per the spec a
runtime error carries a human-readable message and, when known, a source
position.  Positions are untracked here, so only the message remains. -/
structure RErr where
  msg : String
deriving DecidableEq, Repr

/-- An evaluation outcome: the interpreter's value or a recovered panic. -/
abbrev EvalRes := Except RErr Value

end Talang

namespace Talang

/-- The Go string of a `token.Type` constant (used in error messages). -/
def tokenTypeStr : TokenType → String
  | .illegal => "Illegal" | .eof => "EOF"
  | .identifier => "Identifier" | .number => "Number" | .strT => "String"
  | .assign => "=" | .plus => "+" | .minus => "-" | .bang => "!"
  | .asterisk => "*" | .slash => "/"
  | .equal => "==" | .notEqual => "!=" | .orK => "Or" | .andK => "And"
  | .lessThanEqual => "<=" | .lessThan => "<"
  | .greaterThanEqual => ">=" | .greaterThan => ">"
  | .comma => "," | .semicolon => ";" | .dot => "."
  | .leftParen => "(" | .rightParen => ")"
  | .leftBrace => "LeftBrace" | .rightBrace => "RightBrace"
  | .leftBracket => "[" | .rightBracket => "]"
  | .classK => "Class" | .thisK => "This" | .superK => "Super"
  | .functionK => "Function" | .letK => "Let" | .trueK => "True"
  | .falseK => "False" | .nilK => "Nil" | .ifK => "If" | .elseK => "Else"
  | .whileK => "While" | .returnK => "Return" | .printK => "Print"
  | .forK => "For"

/-- `Environment.Get`: walk the enclosing chain toward the root.  The first
argument bounds the walk (environment graphs are acyclic trees, so
`s.envs.length` suffices). -/
def envGetVar (s : IState) : Nat → Nat → String → Option Value
  | 0, _, _ => none
  | chain + 1, envId, key =>
    match s.envs.get? envId with
    | none => none
    | some e =>
      match alookup e.values key with
      | some v => some v
      | none =>
        match e.enclosing with
        | some parent => envGetVar s chain parent key
        | none => none

/-- `Environment.Assign`: update the nearest binding; `none` when the name is
not bound anywhere in the chain. -/
def envAssignVar (s : IState) : Nat → Nat → String → Value → Option IState
  | 0, _, _, _ => none
  | chain + 1, envId, key, v =>
    match s.envs.get? envId with
    | none => none
    | some e =>
      match alookup e.values key with
      | some _ =>
          some { s with envs := s.envs.set envId { e with values := aset e.values key v } }
      | none =>
        match e.enclosing with
        | some parent => envAssignVar s chain parent key v
        | none => none

/-- `Environment.Define`: bind (or overwrite) a name in one environment. -/
def envDefineVar (s : IState) (envId : Nat) (key : String) (v : Value) : IState :=
  match s.envs.get? envId with
  | none => s
  | some e => { s with envs := s.envs.set envId { e with values := aset e.values key v } }

/-- `valuer.NewEnclosing`: allocate a fresh empty environment with the given
parent, returning its identifier. -/
def allocEnv (s : IState) (enclosing : Option Nat) : Nat × IState :=
  (s.envs.length, { s with envs := s.envs ++ [⟨[], enclosing⟩] })

/-- Allocate a `valuer.Function` value. -/
def allocFn (s : IState) (fn : FunData) : Nat × IState :=
  (s.fns.length, { s with fns := s.fns ++ [fn] })

/-- Allocate a `valuer.Klass` value. -/
def allocKlass (s : IState) (k : KlassData) : Nat × IState :=
  (s.klasses.length, { s with klasses := s.klasses ++ [k] })

/-- Allocate a `valuer.Instance`. -/
def allocInst (s : IState) (i : InstData) : Nat × IState :=
  (s.insts.length, { s with insts := s.insts ++ [i] })

/-- Allocate a `valuer.Array`. -/
def allocArray (s : IState) (elems : List Value) : Value × IState :=
  (.arrayV s.arrays.length, { s with arrays := s.arrays ++ [elems] })

/-- Allocate a fresh `&valuer.Nil{}` (builtins return these; they are distinct
from the interpreter package's `Nil` singleton under Go pointer identity). -/
def freshNil (s : IState) : Value × IState :=
  (.nilV (some s.nilAllocs), { s with nilAllocs := s.nilAllocs + 1 })

/-- `interpreter.isTruthy`.  The source switches on pointer identity against
the `Nil`/`True`/`False` singletons with a truthy default, so a freshly
allocated `&valuer.Nil{}` (from a builtin) hits the default and is truthy.
Booleans are represented without allocation identity because every Boolean the
evaluator produces is one of the two singletons. -/
def isTruthy : Value → Bool
  | .nilV none => false
  | .boolean b => b
  | _ => true

/-- `interpreter.evalBangOperator`: identity switch on the singletons with a
`False` default (so `!` on a fresh builtin nil yields `false`). -/
def evalBangOperator : Value → Value
  | .boolean true => .boolean false
  | .boolean false => .boolean true
  | .nilV none => .boolean true
  | _ => .boolean false

/-- Go interface equality `left == rigth` as used by `evalBinary`'s `==`/`!=`
cases: pointer identity for the reference-flavoured variants, singleton
identity for booleans and nil.  `Number`/`String` pairs never reach this
comparison (they are dispatched earlier in `evalBinary`); mixed-type pairs
compare unequal. -/
def identityEq : Value → Value → Bool
  | .nilV a, .nilV b => a == b
  | .boolean a, .boolean b => a == b
  | .arrayV i, .arrayV j => i == j
  | .fnV i, .fnV j => i == j
  | .klassV i, .klassV j => i == j
  | .instV i, .instV j => i == j
  | .builtinV a, .builtinV b => a == b
  | _, _ => false

/-- `interpreter.evalBinaryNumber`.  Note the source handles only
`+ - * / < > == !=`; `<=` and `>=` fall to the unknown-operator error. -/
def evalBinaryNumber (operator : Token) (leftValue rightValue : ℚ) : EvalRes :=
  match operator.type with
  | .plus => .ok (.number (leftValue + rightValue))
  | .minus => .ok (.number (leftValue - rightValue))
  | .asterisk => .ok (.number (leftValue * rightValue))
  | .slash => .ok (.number (leftValue / rightValue))
  | .lessThan => .ok (.boolean (decide (leftValue < rightValue)))
  | .greaterThan => .ok (.boolean (decide (leftValue > rightValue)))
  | .equal => .ok (.boolean (decide (leftValue = rightValue)))
  | .notEqual => .ok (.boolean (decide (leftValue ≠ rightValue)))
  | t => .error ⟨"unknown operator: Number " ++ tokenTypeStr t ++ " Number"⟩

/-- `interpreter.evalBinaryString`: `runtimeError` panics before the
concatenation when the operator is not `+`, so `==`/`!=` (and everything else)
on two strings is a runtime error. -/
def evalBinaryString (operator : Token) (leftValue rightValue : String) : EvalRes :=
  if operator.type ≠ .plus then
    .error ⟨"unknown operator: String " ++ tokenTypeStr operator.type ++ " String"⟩
  else
    .ok (.strV (leftValue ++ rightValue))

/-- The dispatch chain of `interpreter.evalBinary` on two already-evaluated
operands (the operand evaluation itself lives in `evalExpr`). -/
def binaryOp (operator : Token) (left rigth : Value) : EvalRes :=
  match left, rigth with
  | .number lv, .number rv => evalBinaryNumber operator lv rv
  | .strV ls, .strV rs => evalBinaryString operator ls rs
  | _, _ =>
    if operator.type = .equal then .ok (.boolean (identityEq left rigth))
    else if operator.type = .notEqual then .ok (.boolean (!identityEq left rigth))
    else if left.typeTag ≠ rigth.typeTag then
      .error ⟨"type mismatch: " ++ left.typeTag ++ " " ++ operator.literal ++ " " ++ rigth.typeTag⟩
    else
      .error ⟨"unknown operator: " ++ left.typeTag ++ " " ++ operator.literal ++ " " ++ rigth.typeTag⟩

/-- Go `int(f)` conversion of a float: truncation toward zero. -/
def ratTruncInt (q : ℚ) : Int :=
  if q ≥ 0 then ⌊q⌋ else -⌊-q⌋

/-- `valuer.Number.Inspect`: `%d` formatting when the value is integral,
six-decimal `%f` formatting otherwise. -/
def numberInspect (q : ℚ) : String :=
  if q.den = 1 then toString q.num
  else
    let neg := decide (q < 0)
    let a := |q|
    let scaled : Int := ⌊a * 1000000 + 1 / 2⌋
    let ip := scaled / 1000000
    let fp := (scaled % 1000000).toNat
    let fs := toString fp
    let pad := String.mk (List.replicate (6 - fs.length) (Char.ofNat 48))
    (if neg then "-" else "") ++ toString ip ++ "." ++ pad ++ fs

/-- `Builtin.Inspect` strings. -/
def builtinInspect : BuiltinKind → String
  | .clockB => "<fn> clock"
  | .atB => "<fn> at"
  | .lenB => "<fn> len"
  | .pushB => "<fn> push"
  | .restB => "<fn> rest"

mutual

/-- `Value.Inspect()`, reading reference values through the heaps.  The fuel
bounds nesting through arrays. -/
def inspectValue : Nat → IState → Value → String
  | 0, _, _ => ""
  | _ + 1, _, .number q => numberInspect q
  | _ + 1, _, .boolean b => if b then "true" else "false"
  | _ + 1, _, .nilV _ => "nil"
  | _ + 1, _, .strV v => v
  | fuel + 1, s, .ret v => inspectValue fuel s v
  | fuel + 1, s, .arrayV id =>
    match s.arrays.get? id with
    | none => "[]"
    | some elems => "[" ++ String.intercalate ", " (inspectList fuel s elems) ++ "]"
  | _ + 1, s, .fnV id =>
    match s.fns.get? id with
    | none => "<fn >"
    | some fn => "<fn " ++ fn.name ++ ">"
  | _ + 1, s, .klassV id =>
    match s.klasses.get? id with
    | none => "class "
    | some k => "class " ++ k.name
  | _ + 1, s, .instV id =>
    match s.insts.get? id with
    | none => " instance"
    | some i =>
      match s.klasses.get? i.klass with
      | none => " instance"
      | some k => k.name ++ " instance"
  | _ + 1, _, .builtinV b => builtinInspect b
  | _ + 1, _, .goNil => "<go nil>"
  | _ + 1, _, .compiledFnV _ _ _ => "CompiledFunction"

/-- Element-wise `Inspect` of an array's contents. -/
def inspectList : Nat → IState → List Value → List String
  | 0, _, _ => []
  | _ + 1, _, [] => []
  | fuel + 1, s, v :: rest => inspectValue fuel s v :: inspectList fuel s rest

end

end Talang

namespace Talang

/-- Arity of each callable builtin (`valuer/builtins.go`). -/
def builtinArity : BuiltinKind → Nat
  | .clockB => 0
  | .atB => 2
  | .lenB => 1
  | .pushB => 2
  | .restB => 1

/-- The native implementations of `valuer/builtins.go`.  `clock` reads the
host clock, an external effect; it is modelled as returning the number `0`
(no settled claim observes it).  Error messages are the source's, including
its `want=1` typo in `at` and its use of `args[0]`'s type in the NUMBER
message. -/
def callBuiltin (s : IState) : BuiltinKind → List Value → EvalRes × IState
  | .clockB, args =>
    if args.length ≠ 0 then
      (.error ⟨"wrong number of arguments for `clock`. got=" ++ toString args.length ++ ", want=0"⟩, s)
    else
      (.ok (.number 0), s)
  | .atB, args =>
    if args.length ≠ 2 then
      (.error ⟨"wrong number of arguments for `at`. got=" ++ toString args.length ++ ", want=1"⟩, s)
    else
      match args.get? 0, args.get? 1 with
      | some (.arrayV id), some (.number q) =>
        (match s.arrays.get? id with
         | none => freshNilRes s
         | some elems =>
           let index := ratTruncInt q
           if index < elems.length ∧ index ≥ 0 then
             (.ok (elems.getD index.toNat .goNil), s)
           else
             freshNilRes s)
      | some a0, some a1 =>
        if a0.typeTag ≠ "Array" then
          (.error ⟨"argument to `at` must be ARRAY, got " ++ a0.typeTag⟩, s)
        else if a1.typeTag ≠ "Number" then
          (.error ⟨"argument to `at` must be NUMBER, got " ++ a0.typeTag⟩, s)
        else (.error ⟨"argument to `at` must be ARRAY, got " ++ a0.typeTag⟩, s)
      | _, _ => (.error ⟨"argument to `at` must be ARRAY, got <go nil>"⟩, s)
  | .lenB, args =>
    if args.length ≠ 1 then
      (.error ⟨"wrong number of arguments for `len`. got=" ++ toString args.length ++ ", want=1"⟩, s)
    else
      match args.get? 0 with
      | some (.arrayV id) =>
        (.ok (.number ((s.arrays.getD id []).length : ℚ)), s)
      | some (.strV v) =>
        (.ok (.number (v.length : ℚ)), s)
      | some a0 =>
        (.error ⟨"argument of `len` must be STRING or ARRAY, got " ++ a0.typeTag⟩, s)
      | none => (.error ⟨"argument of `len` must be STRING or ARRAY, got <go nil>"⟩, s)
  | .pushB, args =>
    if args.length ≠ 2 then
      (.error ⟨"wrong number of arguments for `push`. got=" ++ toString args.length ++ ", want=2"⟩, s)
    else
      match args.get? 0, args.get? 1 with
      | some (.arrayV id), some v =>
        let elems := s.arrays.getD id []
        let (av, s') := allocArray s (elems ++ [v])
        (.ok av, s')
      | some a0, some _ =>
        (.error ⟨"argument to `push` must be ARRAY, got " ++ a0.typeTag⟩, s)
      | _, _ => (.error ⟨"argument to `push` must be ARRAY, got <go nil>"⟩, s)
  | .restB, args =>
    if args.length ≠ 1 then
      (.error ⟨"wrong number of arguments for `rest`. got=" ++ toString args.length ++ ", want=1"⟩, s)
    else
      match args.get? 0 with
      | some (.arrayV id) =>
        let elems := s.arrays.getD id []
        if elems.length > 0 then
          let (av, s') := allocArray s elems.tail
          (.ok av, s')
        else
          freshNilRes s
      | some a0 =>
        (.error ⟨"argument to `rest` must be ARRAY, got " ++ a0.typeTag⟩, s)
      | none => (.error ⟨"argument to `rest` must be ARRAY, got <go nil>"⟩, s)
where
  /-- A fresh `&valuer.Nil{}` result. -/
  freshNilRes (s : IState) : EvalRes × IState :=
    let (v, s') := freshNil s
    (.ok v, s')

/-- `Klass.FindMethod` (`src/unnamed/part_010`): look the name up in this
class's own method table only — the struct has no superclass to fall
through to. -/
def findMethodOf (s : IState) (klassId : Nat) (key : String) : Option FunData :=
  match s.klasses.get? klassId with
  | none => none
  | some k => alookup k.methods key

/-- `Function.Bind`: a new environment enclosing the function's closure with
`this` bound to the instance, wrapped in a new `Function` value.  The source
does not copy `IsInitializer` (it is left at its zero value `false`). -/
def bindFn (s : IState) (fn : FunData) (instId : Nat) : Value × IState :=
  let (envId, s1) := allocEnv s (some fn.closure)
  let s2 := envDefineVar s1 envId "this" (.instV instId)
  let (fid, s3) := allocFn s2 ⟨fn.name, fn.params, fn.body, envId, false⟩
  (.fnV fid, s3)

/-- `Instance.Get`: the private field table first, then the class's own
method table (binding `this` allocates a fresh bound `Function`). -/
def instGet (s : IState) (instId : Nat) (key : String) : Option Value × IState :=
  match s.insts.get? instId with
  | none => (none, s)
  | some inst =>
    match alookup inst.fields key with
    | some v => (some v, s)
    | none =>
      match findMethodOf s inst.klass key with
      | some m =>
        let (v, s') := bindFn s m instId
        (some v, s')
      | none => (none, s)

/-- `Instance.Set`: write a field (the Go map is lazily initialized). -/
def instSet (s : IState) (instId : Nat) (key : String) (v : Value) : IState :=
  match s.insts.get? instId with
  | none => s
  | some inst =>
    { s with insts := s.insts.set instId { inst with fields := aset inst.fields key v } }

/-- Accumulate a decimal digit string into a natural number; `none` on a
non-digit. -/
def digitsVal : List Char → Nat → Option Nat
  | [], acc => some acc
  | c :: rest, acc =>
    if c.isDigit then digitsVal rest (acc * 10 + (c.toNat - 48)) else none

/-- Split a character list at the first dot. -/
def splitAtDot : List Char → List Char × Option (List Char)
  | [] => ([], none)
  | c :: rest =>
    if c = '.' then ([], some rest)
    else
      let (a, b) := splitAtDot rest
      (c :: a, b)

/-- `strconv.ParseFloat` restricted to the lexer's number lexemes
(one or more digits with an optional fractional part).  Modelled: `strconv`
is Go standard-library code; only such lexemes reach it, and they are exact
in the rational model. -/
def parseDecimal (lit : String) : Option ℚ :=
  let (ipart, fpart) := splitAtDot lit.data
  match fpart with
  | none =>
    match ipart, digitsVal ipart 0 with
    | _ :: _, some n => some (n : ℚ)
    | _, _ => none
  | some fs =>
    match ipart, fs, digitsVal ipart 0, digitsVal fs 0 with
    | _ :: _, _ :: _, some n, some f =>
      some ((n : ℚ) + (f : ℚ) / ((10 : ℚ) ^ fs.length))
    | _, _, _, _ => none

/-- Arity of a callable value (`Callable.Arity`); `none` when the value is
not callable (fails the `valuer.Callable` type assertion). -/
def callableArity (s : IState) : Value → Option Nat
  | .fnV id => some ((s.fns.getD id ⟨"", [], [], 0, false⟩).params.length)
  | .klassV id =>
    match findMethodOf s id "init" with
    | some init => some init.params.length
    | none => some 0
  | .builtinV b => some (builtinArity b)
  | _ => none

end Talang

namespace Talang

mutual

/-- `ast.Expr`'s `String()` methods (used by the evaluator's
"not a function" message).  A Go `nil` expression would panic; it is
rendered as a marker. -/
def exprString : Expr → String
  | .nilE => "<nil>"
  | .literal tok v =>
    match tok.type with
    | .nilK => "null"
    | .trueK => "true"
    | .falseK => "false"
    | .number => v
    | .strT => v
    | _ => ""
  | .binary l op r =>
    "(" ++ exprString l ++ " " ++ tokenTypeStr op.type ++ " " ++ exprString r ++ ")"
  | .grouping e => "(" ++ exprString e ++ ")"
  | .logical l op r =>
    "(" ++ exprString l ++ " " ++ tokenTypeStr op.type ++ " " ++ exprString r ++ ")"
  | .unary op r => "(" ++ tokenTypeStr op.type ++ exprString r ++ ")"
  | .var n => n
  | .arrayE elems => "[" ++ String.intercalate ", " (exprStringList elems) ++ "]"
  | .assignE n v => n ++ " = " ++ exprString v
  | .get n obj => exprString obj ++ "." ++ n.literal
  | .setE n obj v => exprString obj ++ "." ++ n.literal ++ " = " ++ exprString v
  | .thisE _ => "this"
  | .superE _ _ => "super"
  | .callE callee args =>
    exprString callee ++ "(" ++ String.intercalate ", " (exprStringList args) ++ ")"

/-- Element-wise `String()` of an expression list. -/
def exprStringList : List Expr → List String
  | [] => []
  | e :: rest => exprString e :: exprStringList rest

end

/-- `interpreter.evalLiteral` after token dispatch (number parsing modelled
by `parseDecimal`). -/
def evalLiteral (tok : Token) : EvalRes :=
  match tok.type with
  | .strT => .ok (.strV tok.literal)
  | .number =>
    match parseDecimal tok.literal with
    | some q => .ok (.number q)
    | none => .error ⟨"invalid number literal: " ++ tok.literal⟩
  | .nilK => .ok (.nilV none)
  | .trueK => .ok (.boolean true)
  | .falseK => .ok (.boolean false)
  | _ => .error ⟨"invalid token"⟩

/-- `interpreter.evalClassStmt`'s method-table construction: each method
becomes a `Function` closing over the current environment; map assignment in
declaration order.  The statement's `SuperClass` field is not consulted
(faithful to the source). -/
def collectMethods (curEnv : Nat) (methods : List Stmt) : List (String × FunData) :=
  methods.foldl
    (fun acc m =>
      match m with
      | .functionStmt name params body isInit => aset acc name ⟨name, params, body, curEnv, isInit⟩
      | _ => acc)
    []

/-- `Value.Inspect` with the recursion bound derived from the state: array
elements always have strictly smaller allocation identifiers than their
container, so `s.arrays.length + 1` bounds the nesting. -/
def inspectValueS (s : IState) (v : Value) : String :=
  inspectValue (s.arrays.length + 1) s v

/-- The mutually recursive evaluator methods of
`src/interpreter/interpreter.go`, tied into one function pack closed by a
`Nat.rec` fuel iteration (each field embeds exactly one source method). -/
structure InterpFns where
  evalExpr : Expr → IState → EvalRes × IState
  evalExprList : List Expr → IState → (Except RErr (List Value)) × IState
  evalStmt : Stmt → IState → EvalRes × IState
  evalWhileLoop : Expr → Stmt → IState → EvalRes × IState
  executeBlock : List Stmt → Nat → IState → EvalRes × IState
  blockLoop : List Stmt → IState → EvalRes × IState
  callFunction : FunData → List Expr → IState → EvalRes × IState
  bindParams : List (String × Expr) → Nat → IState → (Except RErr Unit) × IState
  ctorInstance : Nat → List Expr → IState → EvalRes × IState

/-- The out-of-fuel bottom of the evaluator pack (unreachable with adequate
fuel). -/
def interpFail : InterpFns where
  evalExpr := fun _ s => (.error ⟨"fuel exhausted"⟩, s)
  evalExprList := fun _ s => (.error ⟨"fuel exhausted"⟩, s)
  evalStmt := fun _ s => (.error ⟨"fuel exhausted"⟩, s)
  evalWhileLoop := fun _ _ s => (.error ⟨"fuel exhausted"⟩, s)
  executeBlock := fun _ _ s => (.error ⟨"fuel exhausted"⟩, s)
  blockLoop := fun _ s => (.error ⟨"fuel exhausted"⟩, s)
  callFunction := fun _ _ s => (.error ⟨"fuel exhausted"⟩, s)
  bindParams := fun _ _ s => (.error ⟨"fuel exhausted"⟩, s)
  ctorInstance := fun _ _ s => (.error ⟨"fuel exhausted"⟩, s)

/-- One unfolding of every evaluator method
(`src/interpreter/interpreter.go`), recursive calls going through `rec`:
- `evalExpr` is `Interpreter.eval` on expressions (panics raised through
  `runtimeError` or `panic(string)` become `Except.error`, matching the
  `recover` in `Interpreter.Evaluate`);
- `evalStmt` is `Interpreter.eval` on statements;
- `evalWhileLoop` is the loop of `evalWhileStmt`;
- `executeBlock` swaps in the given environment and restores the previous
  one on every exit path (the source's `defer`); `blockLoop` is its
  statement loop (result starts at `Nil`, a `Return` value short-circuits);
- `callFunction` binds parameters (through `bindParams`) in a fresh
  environment enclosing the closure and runs the body as a block, unwrapping
  a `Return` signal and otherwise yielding `Nil`;
- `ctorInstance` allocates the instance, then invokes a bound `init` when
  the class has one. -/
def interpStep (rec : InterpFns) : InterpFns where
  evalExpr := fun e s =>
    match e with
    | .nilE => (.error ⟨"unknown ast type"⟩, s)
    | .literal tok _ => (evalLiteral tok, s)
    | .arrayE elems =>
      match rec.evalExprList elems s with
      | (.error err, s') => (.error err, s')
      | (.ok vs, s') =>
        let (v, s'') := allocArray s' vs
        (.ok v, s'')
    | .unary op right =>
      match rec.evalExpr right s with
      | (.error err, s') => (.error err, s')
      | (.ok rv, s') =>
        match op.type with
        | .bang => (.ok (evalBangOperator rv), s')
        | .minus =>
          match rv with
          | .number v => (.ok (.number (-v)), s')
          | _ => (.error ⟨"unknown operator: -" ++ rv.typeTag⟩, s')
        | t =>
          (.error ⟨"unknown operator: " ++ tokenTypeStr t ++ inspectValueS s' rv⟩, s')
    | .binary l op r =>
      match rec.evalExpr l s with
      | (.error err, s1) => (.error err, s1)
      | (.ok lv, s1) =>
        match rec.evalExpr r s1 with
        | (.error err, s2) => (.error err, s2)
        | (.ok rv, s2) => (binaryOp op lv rv, s2)
    | .logical l op r =>
      match rec.evalExpr l s with
      | (.error err, s1) => (.error err, s1)
      | (.ok lv, s1) =>
        match rec.evalExpr r s1 with
        | (.error err, s2) => (.error err, s2)
        | (.ok rv, s2) =>
          match op.type with
          | .andK => (.ok (.boolean (isTruthy lv && isTruthy rv)), s2)
          | .orK => (.ok (.boolean (isTruthy lv || isTruthy rv)), s2)
          | t =>
            (.error ⟨"unknown operator: " ++ tokenTypeStr t ++ " " ++
                     inspectValueS s2 lv ++ " " ++ inspectValueS s2 rv⟩, s2)
    | .grouping inner => rec.evalExpr inner s
    | .var name =>
      match envGetVar s s.envs.length s.cur name with
      | some v => (.ok v, s)
      | none => (.error ⟨"identifier not found: " ++ name⟩, s)
    | .assignE name value =>
      match rec.evalExpr value s with
      | (.error err, s') => (.error err, s')
      | (.ok v, s') =>
        match envAssignVar s' s'.envs.length s'.cur name v with
        | some s'' => (.ok v, s'')
        | none => (.error ⟨"identifier not found: " ++ name⟩, s')
    | .get name obj =>
      match rec.evalExpr obj s with
      | (.error err, s') => (.error err, s')
      | (.ok ov, s') =>
        match ov with
        | .instV id =>
          match instGet s' id name.literal with
          | (some p, s'') => (.ok p, s'')
          | (none, s'') => (.error ⟨"undefined propterty: want " ++ name.literal⟩, s'')
        | _ => (.error ⟨"required instance: got " ++ ov.typeTag⟩, s')
    | .setE name obj value =>
      match rec.evalExpr obj s with
      | (.error err, s') => (.error err, s')
      | (.ok ov, s') =>
        match ov with
        | .instV id =>
          match rec.evalExpr value s' with
          | (.error err, s'') => (.error err, s'')
          | (.ok v, s'') => (.ok v, instSet s'' id name.literal v)
        | _ => (.error ⟨"required instance: got " ++ ov.typeTag⟩, s')
    | .thisE _ =>
      match envGetVar s s.envs.length s.cur "this" with
      | some v => (.ok v, s)
      | none => (.error ⟨"could not use `this` outside a class"⟩, s)
    | .superE _ _ => (.error ⟨"unknown ast type"⟩, s)
    | .callE callee args =>
      match rec.evalExpr callee s with
      | (.error err, s1) => (.error err, s1)
      | (.ok cv, s1) =>
        -- stray debug output in the source:
        -- fmt.Printf("called %s\n", callee.Inspect())
        let s2 := { s1 with output := s1.output ++ ["called " ++ inspectValueS s1 cv] }
        match callableArity s2 cv with
        | none => (.error ⟨"not a function: " ++ exprString callee⟩, s2)
        | some ar =>
          if ar ≠ args.length then
            (.error ⟨"Expected " ++ toString ar ++ " arguments but got " ++
                     toString args.length⟩, s2)
          else
            match cv with
            | .builtinV b =>
              match rec.evalExprList args s2 with
              | (.error err, s3) => (.error err, s3)
              | (.ok vs, s3) => callBuiltin s3 b vs
            | .fnV id => rec.callFunction (s2.fns.getD id ⟨"", [], [], 0, false⟩) args s2
            | .klassV id => rec.ctorInstance id args s2
            | _ => (.error ⟨"invalid type"⟩, s2)
  evalExprList := fun es s =>
    match es with
    | [] => (.ok [], s)
    | e :: rest =>
      match rec.evalExpr e s with
      | (.error err, s') => (.error err, s')
      | (.ok v, s') =>
        match rec.evalExprList rest s' with
        | (.error err, s'') => (.error err, s'')
        | (.ok vs, s'') => (.ok (v :: vs), s'')
  evalStmt := fun st s =>
    match st with
    | .nilS => (.error ⟨"unknown ast type"⟩, s)
    | .exprStmt e => rec.evalExpr e s
    | .printS e =>
      match rec.evalExpr e s with
      | (.error err, s') => (.error err, s')
      | (.ok v, s') =>
        (.ok (.nilV none), { s' with output := s'.output ++ [inspectValueS s' v] })
    | .varStmt name init =>
      match init with
      | .nilE => (.ok (.nilV none), envDefineVar s s.cur name (.nilV none))
      | _ =>
        match rec.evalExpr init s with
        | (.error err, s') => (.error err, s')
        | (.ok v, s') => (.ok (.nilV none), envDefineVar s' s'.cur name v)
    | .block stmts =>
      let (envId, s1) := allocEnv s (some s.cur)
      rec.executeBlock stmts envId s1
    | .ifS cond thenB elseB =>
      match rec.evalExpr cond s with
      | (.error err, s') => (.error err, s')
      | (.ok cv, s') =>
        if isTruthy cv then rec.evalStmt thenB s'
        else
          match elseB with
          | .nilS => (.ok (.nilV none), s')
          | _ => rec.evalStmt elseB s'
    | .whileS cond body => rec.evalWhileLoop cond body s
    | .functionStmt name params body isInit =>
      let (fid, s1) := allocFn s ⟨name, params, body, s.cur, isInit⟩
      (.ok (.nilV none), envDefineVar s1 s1.cur name (.fnV fid))
    | .returnStmt v =>
      match v with
      | .nilE => (.ok (.ret (.nilV none)), s)
      | _ =>
        match rec.evalExpr v s with
        | (.error err, s') => (.error err, s')
        | (.ok rv, s') => (.ok (.ret rv), s')
    | .classStmt name _ methods =>
      let ms := collectMethods s.cur methods
      let (kid, s1) := allocKlass s ⟨name, ms⟩
      (.ok (.nilV none), envDefineVar s1 s1.cur name (.klassV kid))
  evalWhileLoop := fun cond body s =>
    match rec.evalExpr cond s with
    | (.error err, s') => (.error err, s')
    | (.ok cv, s') =>
      if isTruthy cv then
        match rec.evalStmt body s' with
        | (.error err, s'') => (.error err, s'')
        | (.ok v, s'') =>
          if v.typeTag = "Return" then (.ok v, s'')
          else rec.evalWhileLoop cond body s''
      else (.ok (.nilV none), s')
  executeBlock := fun stmts envId s =>
    let previous := s.cur
    let (r, s') := rec.blockLoop stmts { s with cur := envId }
    (r, { s' with cur := previous })
  blockLoop := fun stmts s =>
    match stmts with
    | [] => (.ok (.nilV none), s)
    | st :: rest =>
      match rec.evalStmt st s with
      | (.error err, s') => (.error err, s')
      | (.ok v, s') =>
        if v.typeTag = "Return" then (.ok v, s')
        else
          match rest with
          | [] => (.ok v, s')
          | _ => rec.blockLoop rest s'
  callFunction := fun fn args s =>
    let (envId, s1) := allocEnv s (some fn.closure)
    match rec.bindParams (fn.params.zip args) envId s1 with
    | (.error err, s2) => (.error err, s2)
    | (.ok _, s2) =>
      match rec.executeBlock fn.body envId s2 with
      | (.error err, s3) => (.error err, s3)
      | (.ok v, s3) =>
        match v with
        | .ret rv => (.ok rv, s3)
        | _ => (.ok (.nilV none), s3)
  bindParams := fun ps envId s =>
    match ps with
    | [] => (.ok (), s)
    | (p, a) :: rest =>
      match rec.evalExpr a s with
      | (.error err, s') => (.error err, s')
      | (.ok v, s') => rec.bindParams rest envId (envDefineVar s' envId p v)
  ctorInstance := fun klassId args s =>
    let (instId, s1) := allocInst s ⟨klassId, []⟩
    match findMethodOf s1 klassId "init" with
    | none => (.ok (.instV instId), s1)
    | some init =>
      let (bound, s2) := bindFn s1 init instId
      match bound with
      | .fnV fid =>
        match rec.callFunction (s2.fns.getD fid ⟨"", [], [], 0, false⟩) args s2 with
        | (.error err, s3) => (.error err, s3)
        | (.ok _, s3) => (.ok (.instV instId), s3)
      | _ => (.error ⟨"invalid type"⟩, s2)

/-- The evaluator pack at a given recursion depth. -/
def interpAt (fuel : Nat) : InterpFns :=
  Nat.rec interpFail (fun _ prev => interpStep prev) fuel

/-- `Interpreter.eval` on an expression at a recursion budget. -/
def evalExpr (fuel : Nat) : Expr → IState → EvalRes × IState :=
  (interpAt fuel).evalExpr

/-- `Interpreter.eval` on a statement at a recursion budget. -/
def evalStmt (fuel : Nat) : Stmt → IState → EvalRes × IState :=
  (interpAt fuel).evalStmt

/-- `Interpreter.executeBlock` at a recursion budget. -/
def executeBlock (fuel : Nat) : List Stmt → Nat → IState → EvalRes × IState :=
  (interpAt fuel).executeBlock

/-- `Interpreter.callFunction` at a recursion budget. -/
def callFunction (fuel : Nat) : FunData → List Expr → IState → EvalRes × IState :=
  (interpAt fuel).callFunction

/-- The loop of `Interpreter.evalWhileStmt` at a recursion budget. -/
def evalWhileLoop (fuel : Nat) : Expr → Stmt → IState → EvalRes × IState :=
  (interpAt fuel).evalWhileLoop

/-- `Interpreter.evalProgram`: statements in order; the result variable
starts as the Go `nil` interface and ends as the last statement's value. -/
def evalProgramStmts (fuel : Nat) : List Stmt → IState → EvalRes × IState :=
  Nat.rec (motive := fun _ => List Stmt → IState → EvalRes × IState)
    (fun _ s => (.error ⟨"fuel exhausted"⟩, s))
    (fun fuel ih stmts s =>
      match stmts with
      | [] => (.ok .goNil, s)
      | st :: rest =>
        match (interpAt fuel).evalStmt st s with
        | (.error err, s') => (.error err, s')
        | (.ok v, s') =>
          match rest with
          | [] => (.ok v, s')
          | _ => ih rest s')
    fuel

/-- `interpreter.New`: the global environment with the five builtins. -/
def newInterpreter : IState :=
  { envs := [⟨[("clock", .builtinV .clockB), ("at", .builtinV .atB),
              ("len", .builtinV .lenB), ("push", .builtinV .pushB),
              ("rest", .builtinV .restB)], none⟩],
    fns := [], klasses := [], insts := [], arrays := [],
    nilAllocs := 0, cur := 0, output := [] }

/-- `Interpreter.Evaluate` on a program (the `recover` that converts panics
to returned errors is the `Except` structure itself). -/
def evaluateProgram (fuel : Nat) (p : Program) (s : IState) : EvalRes × IState :=
  evalProgramStmts fuel p s

end Talang

namespace Talang

/-- Go `unicode.IsSpace` restricted to ASCII (plus the control whitespace
characters); every character a settled claim feeds the lexer is ASCII. -/
def unicodeIsSpace (c : Char) : Bool :=
  c = ' ' || c = Char.ofNat 9 || c = Char.ofNat 10 || c = Char.ofNat 13 ||
  c = Char.ofNat 11 || c = Char.ofNat 12

/-- Go `unicode.IsLetter` restricted to ASCII (`A–Z`/`a–z`); all claim inputs
are ASCII, where the two functions agree.  Note `'_'` is NOT a letter. -/
def unicodeIsLetter (c : Char) : Bool :=
  c.isAlpha

/-- Go `unicode.IsNumber` restricted to ASCII digits. -/
def unicodeIsNumber (c : Char) : Bool :=
  c.isDigit

/-- `lexer.isAlphaNumeric` (`src/unnamed/part_008`): letters, digits or the
underscore — used only for identifier CONTINUATION characters. -/
def isAlphaNumeric (c : Char) : Bool :=
  unicodeIsLetter c || unicodeIsNumber c || c = '_'

/-- Lexer state: the current rune (`l.ch`, `none` once the scanner reports
EOF) and the characters not yet consumed. -/
structure LexState where
  ch : Option Char
  rest : List Char
deriving Repr, DecidableEq

/-- `lexer.New`: initialize the scanner and consume the first rune. -/
def lexNew (input : String) : LexState :=
  match input.data with
  | [] => ⟨none, []⟩
  | c :: cs => ⟨some c, cs⟩

/-- `Lexer.consume`. -/
def lconsume (st : LexState) : LexState :=
  match st.ch with
  | none => st
  | some _ =>
    match st.rest with
    | [] => ⟨none, []⟩
    | c :: cs => ⟨some c, cs⟩

/-- `Lexer.match`: consume iff the lookahead equals the expected rune. -/
def lmatch (expected : Char) (st : LexState) : Bool × LexState :=
  match st.ch, st.rest.head? with
  | none, _ => (false, st)
  | some _, none => (false, st)
  | some _, some p => if p = expected then (true, lconsume st) else (false, st)

/-- `Lexer.skipWhitespaces`.  (All fueled loops in this development are
expressed with `Nat.rec` so that concrete executions reduce cheaply inside
the kernel.) -/
def skipWhitespaces (fuel : Nat) : LexState → LexState :=
  Nat.rec (motive := fun _ => LexState → LexState)
    (fun st => st)
    (fun _ ih st =>
      match st.ch with
      | some c => if unicodeIsSpace c then ih (lconsume st) else st
      | none => st)
    fuel

/-- `Lexer.readString`: the opening quote is consumed here; the closing quote
is left for `NextToken`'s trailing `consume` (the source's own `consume` at
the end of `readString` is commented out).  The unterminated-string message
loses its source-position prefix. -/
def readString (fuel : Nat) (st : LexState) : Except String String × LexState :=
  let st1 := lconsume st
  if st1.ch = some '"' then (.ok "", lconsume st1)
  else readStringLoop fuel [] st1
where
  readStringLoop (fuel : Nat) : List Char → LexState → Except String String × LexState :=
    Nat.rec (motive := fun _ => List Char → LexState → Except String String × LexState)
      (fun acc st => (.ok (String.mk acc.reverse), st))
      (fun _ ih acc st =>
        match st.ch with
        | none => (.error "unterminated string", st)
        | some c =>
          if c = '"' then (.ok (String.mk acc.reverse), st)
          else ih (c :: acc) (lconsume st))
      fuel

/-- The digit-collecting loop of `Lexer.readNumber`. -/
def readDigits (fuel : Nat) : List Char → LexState → List Char × LexState :=
  Nat.rec (motive := fun _ => List Char → LexState → List Char × LexState)
    (fun acc st => (acc, st))
    (fun _ ih acc st =>
      match st.ch with
      | some c =>
        if unicodeIsNumber c then ih (acc ++ [c]) (lconsume st)
        else (acc, st)
      | none => (acc, st))
    fuel

/-- `Lexer.readNumber`: digits, then an optional fraction only when the rune
after the dot is itself a digit (a trailing `.` is left unconsumed). -/
def readNumber (fuel : Nat) (st : LexState) : String × LexState :=
  let (ipart, st1) := readDigits fuel [] st
  match st1.ch with
  | some c =>
    if c = '.' then
      match st1.rest.head? with
      | some p =>
        if unicodeIsNumber p then
          let (fpart, st2) := readDigits fuel [] (lconsume st1)
          (String.mk (ipart ++ [c] ++ fpart), st2)
        else (String.mk ipart, st1)
      | none => (String.mk ipart, st1)
    else (String.mk ipart, st1)
  | none => (String.mk ipart, st1)

/-- `Lexer.readIdentifier`: collect while `isAlphaNumeric`. -/
def readIdentifier (fuel : Nat) : LexState → String × LexState :=
  Nat.rec (motive := fun _ => LexState → String × LexState)
    (fun st => ("", st))
    (fun _ ih st =>
      match st.ch with
      | some c =>
        if isAlphaNumeric c then
          let (restId, st') := ih (lconsume st)
          (String.mk (c :: restId.data), st')
        else ("", st)
      | none => ("", st))
    fuel

/-- `Lexer.NextToken`: skip whitespace and dispatch on the current rune.  The
letter and digit branches return without the trailing `consume`; every other
branch consumes once after building its token. -/
def nextToken (fuel : Nat) (st0 : LexState) : Token × LexState :=
  let st := skipWhitespaces fuel st0
  match st.ch with
  | none => (⟨.eof, ""⟩, lconsume st)
  | some c =>
    if c = '!' then
      let (m, st') := lmatch '=' st
      (if m then (⟨.notEqual, "!="⟩, lconsume st') else (⟨.bang, "!"⟩, lconsume st'))
    else if c = '<' then
      let (m, st') := lmatch '=' st
      (if m then (⟨.lessThanEqual, "<="⟩, lconsume st') else (⟨.lessThan, String.mk [c]⟩, lconsume st'))
    else if c = '>' then
      let (m, st') := lmatch '=' st
      (if m then (⟨.greaterThanEqual, ">="⟩, lconsume st') else (⟨.greaterThan, String.mk [c]⟩, lconsume st'))
    else if c = '=' then
      let (m, st') := lmatch '=' st
      (if m then (⟨.equal, "=="⟩, lconsume st') else (⟨.assign, String.mk [c]⟩, lconsume st'))
    else if c = '*' then (⟨.asterisk, String.mk [c]⟩, lconsume st)
    else if c = '/' then (⟨.slash, String.mk [c]⟩, lconsume st)
    else if c = ',' then (⟨.comma, String.mk [c]⟩, lconsume st)
    else if c = ';' then (⟨.semicolon, String.mk [c]⟩, lconsume st)
    else if c = '.' then (⟨.dot, String.mk [c]⟩, lconsume st)
    else if c = '(' then (⟨.leftParen, String.mk [c]⟩, lconsume st)
    else if c = ')' then (⟨.rightParen, String.mk [c]⟩, lconsume st)
    else if c = Char.ofNat 123 then (⟨.leftBrace, String.mk [c]⟩, lconsume st)
    else if c = Char.ofNat 125 then (⟨.rightBrace, String.mk [c]⟩, lconsume st)
    else if c = '[' then (⟨.leftBracket, String.mk [c]⟩, lconsume st)
    else if c = ']' then (⟨.rightBracket, String.mk [c]⟩, lconsume st)
    else if c = '+' then (⟨.plus, String.mk [c]⟩, lconsume st)
    else if c = '-' then (⟨.minus, String.mk [c]⟩, lconsume st)
    else if c = '"' then
      match readString fuel st with
      | (.error msg, st') => (⟨.illegal, msg⟩, lconsume st')
      | (.ok lit, st') => (⟨.strT, lit⟩, lconsume st')
    else if unicodeIsLetter c then
      let (lit, st') := readIdentifier fuel st
      (⟨lookupIdentifier lit, lit⟩, st')
    else if unicodeIsNumber c then
      let (lit, st') := readNumber fuel st
      (⟨.number, lit⟩, st')
    else (⟨.illegal, "unknown token: " ++ String.mk [c]⟩, lconsume st)

/-- `Lexer.Lexeme`: all tokens followed by a single EOF token. -/
def lexemeLoop (fuel : Nat) : LexState → List Token :=
  Nat.rec (motive := fun _ => LexState → List Token)
    (fun _ => [⟨.eof, ""⟩])
    (fun fuel ih st =>
      match st.ch with
      | none => [⟨.eof, ""⟩]
      | some _ =>
        let (tok, st') := nextToken (fuel + 1) st
        tok :: ih st')
    fuel

/-- Lex a whole source string (`lexer.New` + `Lexer.Lexeme`). -/
def lexString (input : String) : List Token :=
  lexemeLoop (input.data.length + 2) (lexNew input)

end Talang

namespace Talang

/-- Parser errors: `parse` is a `ParseError` (recovered by `Parser.Parse`);
`goPanic` models an unrecovered Go panic such as an index out of range.
`ParseError` messages lose only their ` (at line: .., column: ..)` suffix
(positions are untracked). -/
inductive PErr where
  | parse (msg : String)
  | goPanic (msg : String)
deriving DecidableEq, Repr

/-- Parser state (`parser.Parser`): the token list and the cursor. -/
structure PState where
  tokens : List Token
  current : Nat
deriving Repr, DecidableEq

/-- `Parser.peek` (`p.tokens[p.current]`; out of range panics in Go). -/
def peekT (p : PState) : Except PErr Token :=
  match p.tokens.get? p.current with
  | some t => .ok t
  | none => .error (.goPanic "index out of range")

/-- `Parser.previous` (`p.tokens[p.current-1]`). -/
def previousT (p : PState) : Except PErr Token :=
  if p.current = 0 then .error (.goPanic "index out of range")
  else
    match p.tokens.get? (p.current - 1) with
    | some t => .ok t
    | none => .error (.goPanic "index out of range")

/-- `Parser.isAtEnd`. -/
def isAtEndP (p : PState) : Except PErr Bool := do
  let t ← peekT p
  return t.type = .eof

/-- `Parser.check`. -/
def checkP (t : TokenType) (p : PState) : Except PErr Bool := do
  if (← isAtEndP p) then return false
  let tok ← peekT p
  return tok.type = t

/-- `Parser.avance` (the returned `previous()` is unused at every call site). -/
def avanceP (p : PState) : Except PErr PState := do
  if (← isAtEndP p) then return p
  return { p with current := p.current + 1 }

/-- `Parser.match`: advance past the first matching kind. -/
def matchT : List TokenType → PState → Except PErr (Bool × PState)
  | [], p => .ok (false, p)
  | t :: rest, p => do
    if (← checkP t p) then
      let p' ← avanceP p
      return (true, p')
    else
      matchT rest p

/-- `Parser.error`: raise a `ParseError` (the source also prints to stderr
and appends the peeked position). -/
def errorP {α : Type} (msg : String) : Except PErr α :=
  .error (.parse msg)

/-- `Parser.expect`: advance past the required kind or raise. -/
def expectT (t : TokenType) (msg : String) (p : PState) : Except PErr PState := do
  if (← checkP t p) then avanceP p
  else errorP msg

/-- The mutually recursive parser methods of `src/unnamed/part_009`, tied
into one function pack that a `Nat.rec` fuel iteration closes (this encoding
reduces efficiently in the kernel; each field embeds exactly one source
method, named after it). -/
structure ParserFns where
  declaration : PState → Except PErr (Stmt × PState)
  statement : PState → Except PErr (Stmt × PState)
  blockList : List Stmt → PState → Except PErr (List Stmt × PState)
  expression : PState → Except PErr (Expr × PState)
  assignement : PState → Except PErr (Expr × PState)
  orE : PState → Except PErr (Expr × PState)
  orLoop : Expr → PState → Except PErr (Expr × PState)
  andE : PState → Except PErr (Expr × PState)
  andLoop : Expr → PState → Except PErr (Expr × PState)
  equality : PState → Except PErr (Expr × PState)
  equalityLoop : Expr → PState → Except PErr (Expr × PState)
  comparaison : PState → Except PErr (Expr × PState)
  comparaisonLoop : Expr → PState → Except PErr (Expr × PState)
  addition : PState → Except PErr (Expr × PState)
  additionLoop : Expr → PState → Except PErr (Expr × PState)
  factor : PState → Except PErr (Expr × PState)
  factorLoop : Expr → PState → Except PErr (Expr × PState)
  unary : PState → Except PErr (Expr × PState)
  call : PState → Except PErr (Expr × PState)
  callLoop : Expr → PState → Except PErr (Expr × PState)
  finishCall : Expr → PState → Except PErr (Expr × PState)
  argList : List Expr → PState → Except PErr (List Expr × PState)
  primary : PState → Except PErr (Expr × PState)
  funDecl : PState → Except PErr (Stmt × PState)
  paramList : List String → PState → Except PErr (List String × PState)
  classDecl : PState → Except PErr (Stmt × PState)
  methodList : List Stmt → PState → Except PErr (List Stmt × PState)

/-- The out-of-fuel bottom of the parser pack (unreachable with adequate
fuel; recursion in the source is bounded by the token list). -/
def parserFail : ParserFns where
  declaration := fun _ => .error (.goPanic "fuel exhausted")
  statement := fun _ => .error (.goPanic "fuel exhausted")
  blockList := fun _ _ => .error (.goPanic "fuel exhausted")
  expression := fun _ => .error (.goPanic "fuel exhausted")
  assignement := fun _ => .error (.goPanic "fuel exhausted")
  orE := fun _ => .error (.goPanic "fuel exhausted")
  orLoop := fun _ _ => .error (.goPanic "fuel exhausted")
  andE := fun _ => .error (.goPanic "fuel exhausted")
  andLoop := fun _ _ => .error (.goPanic "fuel exhausted")
  equality := fun _ => .error (.goPanic "fuel exhausted")
  equalityLoop := fun _ _ => .error (.goPanic "fuel exhausted")
  comparaison := fun _ => .error (.goPanic "fuel exhausted")
  comparaisonLoop := fun _ _ => .error (.goPanic "fuel exhausted")
  addition := fun _ => .error (.goPanic "fuel exhausted")
  additionLoop := fun _ _ => .error (.goPanic "fuel exhausted")
  factor := fun _ => .error (.goPanic "fuel exhausted")
  factorLoop := fun _ _ => .error (.goPanic "fuel exhausted")
  unary := fun _ => .error (.goPanic "fuel exhausted")
  call := fun _ => .error (.goPanic "fuel exhausted")
  callLoop := fun _ _ => .error (.goPanic "fuel exhausted")
  finishCall := fun _ _ => .error (.goPanic "fuel exhausted")
  argList := fun _ _ => .error (.goPanic "fuel exhausted")
  primary := fun _ => .error (.goPanic "fuel exhausted")
  funDecl := fun _ => .error (.goPanic "fuel exhausted")
  paramList := fun _ _ => .error (.goPanic "fuel exhausted")
  classDecl := fun _ => .error (.goPanic "fuel exhausted")
  methodList := fun _ _ => .error (.goPanic "fuel exhausted")

/-- One unfolding of every parser method (`src/unnamed/part_009`), with
recursive calls going through `rec`:
- `declaration`: `let`/`fn`/`class` dispatch, otherwise a statement;
- `statement`: `print`/`{`/`if`/`while`/`return`, otherwise an expression
  statement — note there is NO `for` branch anywhere, although the lexer
  emits a `For` keyword token;
- the expression chain `expression → assignement → or → and → equality →
  comparaison → addition → factor → unary → call → primary` with the
  `...Loop` fields embedding the source's iteration `for`-loops;
- `primary` is a SEQUENCE of independent `if p.match(...)` blocks over a
  result that starts as the Go `nil` expression: when nothing matches, the
  `nil` expression is returned WITHOUT raising a parse error;
- `funDecl`/`paramList`/`classDecl`/`methodList`: function and class
  declarations (`IsInitializer` is set by `classDecl` for methods named
  `init`; the 255-parameter/argument checks precede the append, as in the
  source). -/
def parserStep (rec : ParserFns) : ParserFns where
  declaration := fun p => do
    let (m, p) ← matchT [.letK] p
    if m then do
      let p ← expectT .identifier "expected `identifier` after `let`" p
      let ident ← previousT p
      let (m, p) ← matchT [.assign] p
      let (init, p) ←
        if m then rec.expression p
        else pure (Expr.nilE, p)
      let p ← expectT .semicolon "expected `semicolon` after a expression" p
      return (.varStmt ident.literal init, p)
    else
      let (m, p) ← matchT [.functionK] p
      if m then rec.funDecl p
      else
        let (m, p) ← matchT [.classK] p
        if m then rec.classDecl p
        else rec.statement p
  statement := fun p => do
    let (m, p) ← matchT [.printK] p
    if m then do
      let (e, p) ← rec.expression p
      let p ← expectT .semicolon "Expect ';' after value." p
      return (.printS e, p)
    else
      let (m, p) ← matchT [.leftBrace] p
      if m then do
        let (stmts, p) ← rec.blockList [] p
        let p ← expectT .rightBrace "Expect '\x7d' after block." p
        return (.block stmts, p)
      else
        let (m, p) ← matchT [.ifK] p
        if m then do
          let p ← expectT .leftParen "expected `(` after if" p
          let (cond, p) ← rec.expression p
          let p ← expectT .rightParen "expected `)` after condition" p
          let (thenB, p) ← rec.statement p
          let (m, p) ← matchT [.elseK] p
          if m then do
            let (elseB, p) ← rec.statement p
            return (.ifS cond thenB elseB, p)
          else
            return (.ifS cond thenB .nilS, p)
        else
          let (m, p) ← matchT [.whileK] p
          if m then do
            let p ← expectT .leftParen "expected `(` after while" p
            let (cond, p) ← rec.expression p
            let p ← expectT .rightParen "expected `)` after condition" p
            let (body, p) ← rec.statement p
            return (.whileS cond body, p)
          else
            let (m, p) ← matchT [.returnK] p
            if m then do
              let (m, p) ← matchT [.semicolon] p
              if m then return (.returnStmt .nilE, p)
              else do
                let (v, p) ← rec.expression p
                let p ← expectT .semicolon "expected ';' after return value." p
                return (.returnStmt v, p)
            else do
              let (e, p) ← rec.expression p
              let p ← expectT .semicolon "expected ';' after value." p
              return (.exprStmt e, p)
  blockList := fun acc p => do
    if !((← checkP .rightBrace p) || (← isAtEndP p)) then
      let (st, p) ← rec.declaration p
      rec.blockList (acc ++ [st]) p
    else
      return (acc, p)
  expression := fun p => rec.assignement p
  assignement := fun p => do
    let (e, p) ← rec.orE p
    let (m, p) ← matchT [.assign] p
    if m then
      let (value, p) ← rec.assignement p
      match e with
      | .var n => return (.assignE n value, p)
      | .get n obj => return (.setE n obj value, p)
      | _ => errorP "invalid assignement target"
    else
      return (e, p)
  orE := fun p => do
    let (e, p) ← rec.andE p
    rec.orLoop e p
  orLoop := fun e p => do
    let (m, p) ← matchT [.orK] p
    if m then
      let op ← previousT p
      let (right, p) ← rec.andE p
      rec.orLoop (.logical e op right) p
    else
      return (e, p)
  andE := fun p => do
    let (e, p) ← rec.equality p
    rec.andLoop e p
  andLoop := fun e p => do
    let (m, p) ← matchT [.andK] p
    if m then
      let op ← previousT p
      let (right, p) ← rec.equality p
      rec.andLoop (.logical e op right) p
    else
      return (e, p)
  equality := fun p => do
    let (e, p) ← rec.comparaison p
    rec.equalityLoop e p
  equalityLoop := fun e p => do
    let (m, p) ← matchT [.equal, .notEqual] p
    if m then
      let op ← previousT p
      let (right, p) ← rec.comparaison p
      rec.equalityLoop (.binary e op right) p
    else
      return (e, p)
  comparaison := fun p => do
    let (e, p) ← rec.addition p
    rec.comparaisonLoop e p
  comparaisonLoop := fun e p => do
    let (m, p) ← matchT [.greaterThan, .greaterThanEqual, .lessThan, .lessThanEqual] p
    if m then
      let op ← previousT p
      let (right, p) ← rec.addition p
      rec.comparaisonLoop (.binary e op right) p
    else
      return (e, p)
  addition := fun p => do
    let (e, p) ← rec.factor p
    rec.additionLoop e p
  additionLoop := fun e p => do
    let (m, p) ← matchT [.plus, .minus] p
    if m then
      let op ← previousT p
      let (right, p) ← rec.factor p
      rec.additionLoop (.binary e op right) p
    else
      return (e, p)
  factor := fun p => do
    let (e, p) ← rec.unary p
    rec.factorLoop e p
  factorLoop := fun e p => do
    let (m, p) ← matchT [.slash, .asterisk] p
    if m then
      let op ← previousT p
      let (right, p) ← rec.unary p
      rec.factorLoop (.binary e op right) p
    else
      return (e, p)
  unary := fun p => do
    let (m, p) ← matchT [.bang, .minus] p
    if m then
      let op ← previousT p
      let (right, p) ← rec.unary p
      return (.unary op right, p)
    else
      rec.call p
  call := fun p => do
    let (e, p) ← rec.primary p
    rec.callLoop e p
  callLoop := fun e p => do
    let (m, p) ← matchT [.leftParen] p
    if m then
      let (e, p) ← rec.finishCall e p
      rec.callLoop e p
    else
      let (m, p) ← matchT [.dot] p
      if m then
        let p ← expectT .identifier "expected property name after `.`" p
        let name ← previousT p
        rec.callLoop (.get name e) p
      else
        return (e, p)
  finishCall := fun callee p => do
    let (m, p) ← matchT [.rightParen] p
    if m then return (.callE callee [], p)
    else
      let (args, p) ← rec.argList [] p
      let p ← expectT .rightParen "expected  ')' after arguments." p
      return (.callE callee args, p)
  argList := fun acc p => do
    let (arg, p) ← rec.expression p
    if acc.length ≥ 255 then errorP "function cannot have more than 255 arguments."
    else
      let acc := acc ++ [arg]
      let (m, p) ← matchT [.comma] p
      if m then rec.argList acc p
      else return (acc, p)
  primary := fun p => do
    let expr := Expr.nilE
    let (m, p) ← matchT [.trueK, .falseK, .nilK, .strT, .number] p
    let (expr, p) ←
      if m then do
        let tok ← previousT p
        pure (Expr.literal tok tok.literal, p)
      else pure (expr, p)
    let (m, p) ← matchT [.thisK] p
    let (expr, p) ←
      if m then do
        let kw ← previousT p
        pure (Expr.thisE kw, p)
      else pure (expr, p)
    let (m, p) ← matchT [.superK] p
    let (expr, p) ←
      if m then do
        let kw ← previousT p
        let p ← expectT .dot "expected '.' after super" p
        let p ← expectT .identifier "expected method name of super" p
        let method ← previousT p
        pure (Expr.superE kw method, p)
      else pure (expr, p)
    let (m, p) ← matchT [.leftParen] p
    let (expr, p) ←
      if m then do
        let (inner, p) ← rec.expression p
        let p ← expectT .rightParen "expected ) after expression." p
        pure (Expr.grouping inner, p)
      else pure (expr, p)
    let (m, p) ← matchT [.identifier] p
    let (expr, p) ←
      if m then do
        let tok ← previousT p
        pure (Expr.var tok.literal, p)
      else pure (expr, p)
    return (expr, p)
  funDecl := fun p => do
    let p ← expectT .identifier "expected function name" p
    let name ← previousT p
    let p ← expectT .leftParen "expected '(' after function name." p
    let (m, p) ← matchT [.rightParen] p
    let (params, p) ←
      if m then pure (([] : List String), p)
      else do
        let (params, p) ← rec.paramList [] p
        let p ← expectT .rightParen "Expect ')' after parameters." p
        pure (params, p)
    let p ← expectT .leftBrace "Expect '\x7b' before function body." p
    let (stmts, p) ← rec.blockList [] p
    let p ← expectT .rightBrace "Expect '\x7d' after block." p
    return (.functionStmt name.literal params stmts false, p)
  paramList := fun acc p => do
    let p ← expectT .identifier "Expect parameter name." p
    let parameter ← previousT p
    if acc.length ≥ 255 then errorP "Cannot have more than 255 parameters."
    else
      let acc := acc ++ [parameter.literal]
      let (m, p) ← matchT [.comma] p
      if m then rec.paramList acc p
      else return (acc, p)
  classDecl := fun p => do
    let p ← expectT .identifier "expected class name after `class`" p
    let name ← previousT p
    let (m, p) ← matchT [.lessThan] p
    let (superName, p) ←
      if m then do
        let p ← expectT .identifier "expected superclass name." p
        let sup ← previousT p
        pure (sup.literal, p)
      else pure ("", p)
    let p ← expectT .leftBrace "expected '\x7b' after class name." p
    let (methods, p) ← rec.methodList [] p
    let p ← expectT .rightBrace "Expect '\x7d' after class block." p
    return (.classStmt name.literal superName methods, p)
  methodList := fun acc p => do
    if (← checkP .identifier p) then
      let (m, p) ← rec.funDecl p
      let m :=
        match m with
        | .functionStmt n ps b _ => Stmt.functionStmt n ps b (n = "init")
        | other => other
      rec.methodList (acc ++ [m]) p
    else
      return (acc, p)

/-- The parser pack at a given recursion depth. -/
def parserAt (fuel : Nat) : ParserFns :=
  Nat.rec parserFail (fun _ prev => parserStep prev) fuel

/-- `Parser.declaration` at a recursion budget. -/
def declarationP (fuel : Nat) : PState → Except PErr (Stmt × PState) :=
  (parserAt fuel).declaration

/-- `Parser.statement` at a recursion budget. -/
def statementP (fuel : Nat) : PState → Except PErr (Stmt × PState) :=
  (parserAt fuel).statement

/-- `Parser.expression` at a recursion budget. -/
def expressionP (fuel : Nat) : PState → Except PErr (Expr × PState) :=
  (parserAt fuel).expression

/-- `Parser.primary` at a recursion budget. -/
def primaryP (fuel : Nat) : PState → Except PErr (Expr × PState) :=
  (parserAt fuel).primary


/-- The top-level loop of `Parser.Parse`. -/
def parseLoopP (fuel : Nat) : List Stmt → PState → Except PErr (List Stmt × PState) :=
  Nat.rec (motive := fun _ => List Stmt → PState → Except PErr (List Stmt × PState))
    (fun _ _ => .error (.goPanic "fuel exhausted"))
    (fun fuel ih acc p =>
      match isAtEndP p with
      | .error e => .error e
      | .ok true => .ok (acc, p)
      | .ok false =>
        match (parserAt fuel).declaration p with
        | .error e => .error e
        | .ok (st, p) => ih (acc ++ [st]) p)
    fuel

/-- `Parser.Parse`: collect declarations until EOF.  A `ParseError` panic is
recovered into a returned error (after which the source runs `synchronize`,
whose cursor movement is unobservable in the returned pair); any other panic
propagates. -/
def parseTokens (tokens : List Token) : Except PErr Program :=
  match parseLoopP (tokens.length * 64 + 64) [] ⟨tokens, 0⟩ with
  | .ok (stmts, _) => .ok stmts
  | .error e => .error e

end Talang

namespace Talang

/-- Opcodes of the bytecode ISA (spec §4.4).  The full `code` package (the
opcode constants and definitions table) is not under `src/`; the opcode SET
and operand widths are taken from the spec, which matches every use in
`compiler.go` and `vm.go`. -/
inductive Opcode where
  | opConstant | opPop | opTrue | opFalse | opNil
  | opAdd | opSub | opMul | opDiv | opAnd | opOr
  | opEqual | opNotEqual | opGreater | opGreaterEqual
  | opBang | opMinus
  | opJump | opJumpNotTruthy
  | opSetGlobal | opGetGlobal | opSetLocal | opGetLocal
  | opArray | opCall | opReturn | opReturnValue
deriving DecidableEq, Repr

/-- Modelled from the spec: the numeric byte value of each opcode is not in
`src/` (the `code` package's constant block is missing); any injective
assignment into one byte is observationally equivalent, and byte `0` is kept
unused so that the Go zero value of `EmittedInstruction.Opcode` matches no
real opcode. -/
def opByte : Opcode → Nat
  | .opConstant => 1 | .opPop => 2 | .opTrue => 3 | .opFalse => 4 | .opNil => 5
  | .opAdd => 6 | .opSub => 7 | .opMul => 8 | .opDiv => 9 | .opAnd => 10 | .opOr => 11
  | .opEqual => 12 | .opNotEqual => 13 | .opGreater => 14 | .opGreaterEqual => 15
  | .opBang => 16 | .opMinus => 17
  | .opJump => 18 | .opJumpNotTruthy => 19
  | .opSetGlobal => 20 | .opGetGlobal => 21 | .opSetLocal => 22 | .opGetLocal => 23
  | .opArray => 24 | .opCall => 25 | .opReturn => 26 | .opReturnValue => 27

/-- Inverse of `opByte` (the `definitions` table lookup). -/
def byteOp (b : Nat) : Option Opcode :=
  [Opcode.opConstant, .opPop, .opTrue, .opFalse, .opNil, .opAdd, .opSub, .opMul,
   .opDiv, .opAnd, .opOr, .opEqual, .opNotEqual, .opGreater, .opGreaterEqual,
   .opBang, .opMinus, .opJump, .opJumpNotTruthy, .opSetGlobal, .opGetGlobal,
   .opSetLocal, .opGetLocal, .opArray, .opCall, .opReturn,
   .opReturnValue].find? (fun op => opByte op = b)

/-- Operand widths per opcode (spec §4.4: `u16` for constants, jumps,
globals and arrays; `u8` for locals and call). -/
def opWidths : Opcode → List Nat
  | .opConstant => [2] | .opJump => [2] | .opJumpNotTruthy => [2]
  | .opSetGlobal => [2] | .opGetGlobal => [2] | .opArray => [2]
  | .opSetLocal => [1] | .opGetLocal => [1] | .opCall => [1]
  | _ => []

/-- Big-endian encoding of one operand at its declared width. -/
def putOperand (width v : Nat) : List Nat :=
  if width = 2 then [v % 65536 / 256, v % 256]
  else if width = 1 then [v % 256]
  else []

/-- `code.Make`: opcode byte followed by big-endian operands. -/
def makeIns (op : Opcode) (operands : List Nat) : List Nat :=
  opByte op :: ((opWidths op).zip operands).foldr (fun (w, v) acc => putOperand w v ++ acc) []

/-- `code.ReadUint16` on an instruction suffix (big-endian); reading past the
end is a Go slice panic. -/
def readU16 : List Nat → Option Nat
  | a :: b :: _ => some (a * 256 + b)
  | _ => none

/-- `code.ReadUint8`. -/
def readU8 : List Nat → Option Nat
  | a :: _ => some a
  | _ => none

/-- Modelled from the spec: the compiler's symbol table (`NewSymbolTable`,
`Define`, `Resolve` are not under `src/`).  Per spec §3, it maps a name to an
index and "defining a name assigns the next unused index within its scope";
the compiler under `src/` never opens a nested scope, so there is a single
flat table. -/
structure SymbolTable where
  store : List (String × Nat)
  numDefinitions : Nat
deriving Repr, DecidableEq

/-- Modelled from the spec: `Define` assigns the next unused index and
(re)binds the name to it. -/
def SymbolTable.define (t : SymbolTable) (name : String) : Nat × SymbolTable :=
  (t.numDefinitions, ⟨aset t.store name t.numDefinitions, t.numDefinitions + 1⟩)

/-- Modelled from the spec: `Resolve` looks the name up. -/
def SymbolTable.resolve (t : SymbolTable) (name : String) : Option Nat :=
  alookup t.store name

/-- A compilation scope (`compiler.CompilationScope`): its instruction
buffer and the last two emitted instructions.  `none` for an opcode is the
Go zero value of `EmittedInstruction` (opcode byte 0, no real opcode). -/
structure CScope where
  instructions : List Nat
  lastOp : Option Opcode
  lastPos : Nat
  prevOp : Option Opcode
  prevPos : Nat
deriving Repr, DecidableEq

/-- The empty scope. -/
def emptyScope : CScope := ⟨[], none, 0, none, 0⟩

/-- Compiler state (`compiler.Compiler`): the scope stack, current scope
index, constants pool and symbol table. -/
structure CState where
  scopes : List CScope
  scopeIndex : Nat
  constants : List Value
  symbolTable : SymbolTable
deriving Repr

/-- `compiler.New`. -/
def compilerNew : CState :=
  { scopes := [emptyScope], scopeIndex := 0, constants := [], symbolTable := ⟨[], 0⟩ }

/-- A compile error (`NewCompileError`; its `[runtime error]` prefix and
positions are dropped together with positions generally). -/
structure CErr where
  msg : String
deriving DecidableEq, Repr

/-- `Compiler.currentInstructions`. -/
def currentIns (cs : CState) : List Nat :=
  (cs.scopes.getD cs.scopeIndex emptyScope).instructions

/-- Replace the current scope. -/
def setScope (cs : CState) (sc : CScope) : CState :=
  { cs with scopes := cs.scopes.set cs.scopeIndex sc }

/-- `Compiler.addConstant`. -/
def addConstantC (cs : CState) (v : Value) : Nat × CState :=
  (cs.constants.length, { cs with constants := cs.constants ++ [v] })

/-- `Compiler.emit` (= `Make` + `addInstruction` + `setLastInstruction`),
returning the position of the new instruction. -/
def emitC (cs : CState) (op : Opcode) (operands : List Nat) : Nat × CState :=
  let sc := cs.scopes.getD cs.scopeIndex emptyScope
  let pos := sc.instructions.length
  let sc' := { sc with
    instructions := sc.instructions ++ makeIns op operands,
    prevOp := sc.lastOp, prevPos := sc.lastPos,
    lastOp := some op, lastPos := pos }
  (pos, setScope cs sc')

/-- `Compiler.lastInstructionIsPop`. -/
def lastInstructionIsPop (cs : CState) : Bool :=
  (cs.scopes.getD cs.scopeIndex emptyScope).lastOp = some .opPop

/-- `Compiler.lastInstructionIs`. -/
def lastInstructionIs (cs : CState) (op : Opcode) : Bool :=
  if (currentIns cs).length = 0 then false
  else (cs.scopes.getD cs.scopeIndex emptyScope).lastOp = some op

/-- `Compiler.removeLastPop`: truncate at the last instruction's position and
promote the previous instruction. -/
def removeLastPop (cs : CState) : CState :=
  let sc := cs.scopes.getD cs.scopeIndex emptyScope
  setScope cs { sc with
    instructions := sc.instructions.take sc.lastPos,
    lastOp := sc.prevOp, lastPos := sc.prevPos }

/-- `Compiler.replaceInstruction`: overwrite bytes in place. -/
def replaceInstruction (cs : CState) (pos : Nat) (newIns : List Nat) : CState :=
  let sc := cs.scopes.getD cs.scopeIndex emptyScope
  let ins := (List.range newIns.length).foldl
    (fun acc i => acc.set (pos + i) (newIns.getD i 0)) sc.instructions
  setScope cs { sc with instructions := ins }

/-- `Compiler.changeOperand`: re-`Make` the instruction at `opPos` with the
new operand (an unknown byte would make `Make` return nothing). -/
def changeOperand (cs : CState) (opPos operand : Nat) : CState :=
  match byteOp ((currentIns cs).getD opPos 0) with
  | some op => replaceInstruction cs opPos (makeIns op [operand])
  | none => replaceInstruction cs opPos []

/-- `Compiler.replaceLastPopWithReturn`. -/
def replaceLastPopWithReturn (cs : CState) : CState :=
  let sc := cs.scopes.getD cs.scopeIndex emptyScope
  let cs' := replaceInstruction cs sc.lastPos (makeIns .opReturnValue [])
  let sc' := cs'.scopes.getD cs'.scopeIndex emptyScope
  setScope cs' { sc' with lastOp := some .opReturnValue }

/-- `Compiler.enterScope`. -/
def enterScopeC (cs : CState) : CState :=
  { cs with scopes := cs.scopes ++ [emptyScope], scopeIndex := cs.scopeIndex + 1 }

/-- `Compiler.leaveScope`: pop the scope stack, returning its instructions. -/
def leaveScopeC (cs : CState) : List Nat × CState :=
  let ins := currentIns cs
  (ins, { cs with scopes := cs.scopes.take (cs.scopes.length - 1),
                  scopeIndex := cs.scopeIndex - 1 })

/-- `compiler.literalToValue`. -/
def literalToValueC (tok : Token) : Except CErr Value :=
  match tok.type with
  | .strT => .ok (.strV tok.literal)
  | .number =>
    match parseDecimal tok.literal with
    | some q => .ok (.number q)
    | none => .error ⟨"invalid number literal: " ++ tok.literal⟩
  | .nilK => .ok (.nilV none)
  | .trueK => .ok (.boolean true)
  | .falseK => .ok (.boolean false)
  | _ => .error ⟨"invalid token"⟩

/-- `Compiler.emitLiteral`. -/
def emitLiteral (cs : CState) (v : Value) : CState :=
  match v with
  | .boolean true => (emitC cs .opTrue []).2
  | .boolean false => (emitC cs .opFalse []).2
  | .nilV _ => (emitC cs .opNil []).2
  | _ =>
    let (idx, cs') := addConstantC cs v
    (emitC cs' .opConstant [idx]).2

end Talang

namespace Talang

/-- The mutually recursive `Compiler.Compile` cases
(`src/compiler/compiler.go`), tied into one function pack closed by a
`Nat.rec` fuel iteration. -/
structure CompileFns where
  compileExpr : Expr → CState → Except CErr CState
  compileExprList : List Expr → CState → Except CErr CState
  compileStmt : Stmt → CState → Except CErr CState
  compileStmtList : List Stmt → CState → Except CErr CState

/-- The out-of-fuel bottom of the compiler pack (unreachable with adequate
fuel). -/
def compileFail : CompileFns where
  compileExpr := fun _ _ => .error ⟨"fuel exhausted"⟩
  compileExprList := fun _ _ => .error ⟨"fuel exhausted"⟩
  compileStmt := fun _ _ => .error ⟨"fuel exhausted"⟩
  compileStmtList := fun _ _ => .error ⟨"fuel exhausted"⟩

/-- One unfolding of `Compiler.Compile` (`src/compiler/compiler.go`).  The
Go switch has NO default: node kinds it does not list — among them
`AssignExpr`, `GetExpr`, `SetExpr`, `ThisExpr`, `SuperExpr`, `PrintStmt`,
`WhileStmt`, `ClassStmt` and `nil` nodes — compile to NOTHING and return no
error.  Dispatch on operators uses the token LITERAL, as in the source;
`<`/`<=` compile right-then-left and use `OpGreater`/`OpGreaterEqual`.
`FunctionStmt` leaves `NumLocals`/`NumParameters` of the built
`CompiledFunction` at their zero values and defines parameters in the single
flat symbol table, faithful to the source (the VM's local opcodes are never
emitted). -/
def compileStep (rec : CompileFns) : CompileFns where
  compileExpr := fun e cs =>
    match e with
    | .grouping inner => rec.compileExpr inner cs
    | .logical l op r => do
      let cs ← rec.compileExpr l cs
      let cs ← rec.compileExpr r cs
      if op.literal = "or" then return (emitC cs .opOr []).2
      else if op.literal = "and" then return (emitC cs .opAnd []).2
      else .error ⟨"unknown operator " ++ op.literal⟩
    | .binary l op r =>
      if op.literal = "<" ∨ op.literal = "<=" then do
        let cs ← rec.compileExpr r cs
        let cs ← rec.compileExpr l cs
        if op.literal = "<" then return (emitC cs .opGreater []).2
        else return (emitC cs .opGreaterEqual []).2
      else do
        let cs ← rec.compileExpr l cs
        let cs ← rec.compileExpr r cs
        if op.literal = "+" then return (emitC cs .opAdd []).2
        else if op.literal = "*" then return (emitC cs .opMul []).2
        else if op.literal = "/" then return (emitC cs .opDiv []).2
        else if op.literal = "-" then return (emitC cs .opSub []).2
        else if op.literal = ">" then return (emitC cs .opGreater []).2
        else if op.literal = ">=" then return (emitC cs .opGreaterEqual []).2
        else if op.literal = "==" then return (emitC cs .opEqual []).2
        else if op.literal = "!=" then return (emitC cs .opNotEqual []).2
        else .error ⟨"unknown operator " ++ op.literal⟩
    | .unary op r => do
      let cs ← rec.compileExpr r cs
      if op.literal = "!" then return (emitC cs .opBang []).2
      else if op.literal = "-" then return (emitC cs .opMinus []).2
      else .error ⟨"unknown operator " ++ op.literal⟩
    | .literal tok _ => do
      let v ← literalToValueC tok
      return emitLiteral cs v
    | .var name =>
      match cs.symbolTable.resolve name with
      | none => .error ⟨"undefined variable " ++ name⟩
      | some idx => return (emitC cs .opGetGlobal [idx]).2
    | .arrayE elems => do
      let cs ← rec.compileExprList elems cs
      return (emitC cs .opArray [elems.length]).2
    | .callE callee args => do
      let cs ← rec.compileExpr callee cs
      let cs ← rec.compileExprList args cs
      return (emitC cs .opCall [args.length]).2
    | _ => return cs
  compileExprList := fun es cs =>
    match es with
    | [] => return cs
    | e :: rest => do
      let cs ← rec.compileExpr e cs
      rec.compileExprList rest cs
  compileStmt := fun st cs =>
    match st with
    | .exprStmt e => do
      let cs ← rec.compileExpr e cs
      return (emitC cs .opPop []).2
    | .ifS cond thenB elseB => do
      let cs ← rec.compileExpr cond cs
      let (jumpNotTruthyPos, cs) := emitC cs .opJumpNotTruthy [9999]
      let cs ← rec.compileStmt thenB cs
      let cs := if lastInstructionIsPop cs then removeLastPop cs else cs
      let (jumpPos, cs) := emitC cs .opJump [9999]
      let afterConsequencePos := (currentIns cs).length
      let cs := changeOperand cs jumpNotTruthyPos afterConsequencePos
      let cs ←
        match elseB with
        | .nilS => pure (emitC cs .opNil []).2
        | _ => do
          let cs ← rec.compileStmt elseB cs
          pure (if lastInstructionIsPop cs then removeLastPop cs else cs)
      let afterAlternativePos := (currentIns cs).length
      return changeOperand cs jumpPos afterAlternativePos
    | .block stmts => rec.compileStmtList stmts cs
    | .varStmt name init => do
      let cs ←
        match init with
        | .nilE => pure (emitC cs .opNil []).2
        | _ => rec.compileExpr init cs
      let (idx, table) := cs.symbolTable.define name
      let cs := { cs with symbolTable := table }
      return (emitC cs .opSetGlobal [idx]).2
    | .functionStmt name params body _ => do
      let cs := enterScopeC cs
      let cs := params.foldl
        (fun cs p =>
          let (_, table) := cs.symbolTable.define p
          { cs with symbolTable := table }) cs
      let cs ← rec.compileStmtList body cs
      let cs := if lastInstructionIs cs .opPop then replaceLastPopWithReturn cs else cs
      let cs := if !lastInstructionIs cs .opReturnValue then (emitC cs .opReturn []).2 else cs
      let (instructions, cs) := leaveScopeC cs
      -- the source also prints the function's instructions to stdout here
      let compiledFn := Value.compiledFnV instructions 0 0
      let (cidx, cs) := addConstantC cs compiledFn
      let (_, cs) := emitC cs .opConstant [cidx]
      let (idx, table) := cs.symbolTable.define name
      let cs := { cs with symbolTable := table }
      return (emitC cs .opSetGlobal [idx]).2
    | .returnStmt v => do
      let cs ← rec.compileExpr v cs
      return (emitC cs .opReturnValue []).2
    | _ => return cs
  compileStmtList := fun stmts cs =>
    match stmts with
    | [] => return cs
    | st :: rest => do
      let cs ← rec.compileStmt st cs
      rec.compileStmtList rest cs

/-- The compiler pack at a given recursion depth. -/
def compileAt (fuel : Nat) : CompileFns :=
  Nat.rec compileFail (fun _ prev => compileStep prev) fuel

/-- Compile one expression at a recursion budget. -/
def compileExpr (fuel : Nat) : Expr → CState → Except CErr CState :=
  (compileAt fuel).compileExpr

/-- Compile one statement at a recursion budget. -/
def compileStmt (fuel : Nat) : Stmt → CState → Except CErr CState :=
  (compileAt fuel).compileStmt

/-- Compile a statement list at a recursion budget (`Program` and
`BlockStmt` both iterate). -/
def compileStmtList (fuel : Nat) : List Stmt → CState → Except CErr CState :=
  (compileAt fuel).compileStmtList


/-- `compiler.Bytecode`. -/
structure Bytecode where
  instructions : List Nat
  constants : List Value
deriving Repr

/-- Compile a whole program from a fresh compiler (`New` + `Compile` +
`Bytecode`). -/
def compileProgram (fuel : Nat) (p : Program) : Except CErr Bytecode := do
  let cs ← compileStmtList fuel p compilerNew
  return ⟨currentIns cs, cs.constants⟩

end Talang

namespace Talang

/-- A VM call frame (`vm/Frame`, `src/unnamed/part_005`): the compiled
function's fields, the instruction pointer (which starts at `-1` and is
pre-incremented) and the base pointer. -/
structure Frame where
  fnInstructions : List Nat
  fnNumLocals : Nat
  fnNumParameters : Nat
  ip : Int
  basePointer : Int
deriving Repr, DecidableEq

/-- `vm.NewFrame`. -/
def newFrame (ins : List Nat) (numLocals numParameters : Nat) (basePointer : Int) : Frame :=
  ⟨ins, numLocals, numParameters, -1, basePointer⟩

/-- VM errors: `vmE` is an error returned from `Run`; `goPanicV` models an
unrecovered Go runtime panic (index out of range, nil-frame dereference);
`fuelOut` only marks exhaustion of the step budget. -/
inductive VmErr where
  | vmE (msg : String)
  | goPanicV (msg : String)
  | fuelOut
deriving DecidableEq, Repr

/-- VM state (`vm.VM`): `sp` points one past the top of stack; the operand
stack, globals array and frame stack are fixed-capacity and their unused
slots hold the Go `nil` interface value.  `arraysH` is the heap backing
`OpArray` allocations (Go array values are pointers). -/
structure VMState where
  sp : Int
  constants : List Value
  stack : List Value
  globals : List Value
  frames : List (Option Frame)
  framesIndex : Int
  arraysH : List (List Value)
deriving Repr, DecidableEq

/-- Checked list read at a (possibly negative) Go index. -/
def listGetAt {α : Type} (l : List α) (i : Int) : Option α :=
  if 0 ≤ i then l.get? i.toNat else none

/-- Checked list write at a (possibly negative) Go index.  The bound check
probes with `get?` instead of computing the length (the globals array has
65536 slots; forcing its length would be needlessly expensive), with the same
in-range semantics. -/
def listSetAt {α : Type} (l : List α) (i : Int) (v : α) : Option (List α) :=
  if 0 ≤ i then
    match l.get? i.toNat with
    | some _ => some (l.set i.toNat v)
    | none => none
  else none

/-- `vm.New`: the whole bytecode wrapped into a main `CompiledFunction` and a
main frame with base pointer 0. -/
def vmNew (bc : Bytecode) : VMState :=
  { sp := 0,
    constants := bc.constants,
    stack := List.replicate 2048 .goNil,
    globals := List.replicate 65536 .goNil,
    frames := some (newFrame bc.instructions 0 0 0) :: List.replicate 1023 none,
    framesIndex := 1,
    arraysH := [] }

/-- `VM.currentFrame` (`frames[framesIndex-1]`), dereferenced. -/
def currentFrameVM (st : VMState) : Except VmErr Frame :=
  match listGetAt st.frames (st.framesIndex - 1) with
  | none => .error (.goPanicV "index out of range")
  | some none => .error (.goPanicV "nil frame")
  | some (some f) => .ok f

/-- Overwrite the current frame. -/
def setCurrentFrame (st : VMState) (f : Frame) : Except VmErr VMState :=
  match listSetAt st.frames (st.framesIndex - 1) (some f) with
  | none => .error (.goPanicV "index out of range")
  | some frames => .ok { st with frames := frames }

/-- `VM.push`: stack-overflow check, write at `sp`, increment `sp`. -/
def pushVM (st : VMState) (v : Value) : Except VmErr VMState :=
  if st.sp ≥ 2048 then .error (.vmE "stack overflow")
  else
    match listSetAt st.stack st.sp v with
    | none => .error (.goPanicV "index out of range")
    | some stack => .ok { st with stack := stack, sp := st.sp + 1 }

/-- `VM.pop`: read `stack[sp-1]`, decrement `sp` (the slot is retained). -/
def popVM (st : VMState) : Except VmErr (Value × VMState) :=
  match listGetAt st.stack (st.sp - 1) with
  | none => .error (.goPanicV "index out of range")
  | some v => .ok (v, { st with sp := st.sp - 1 })

/-- `VM.pushFrame`. -/
def pushFrameVM (st : VMState) (f : Frame) : Except VmErr VMState :=
  match listSetAt st.frames st.framesIndex (some f) with
  | none => .error (.goPanicV "index out of range")
  | some frames => .ok { st with frames := frames, framesIndex := st.framesIndex + 1 }

/-- `VM.popFrame`: decrement the index and return the frame there (the Go
function returns a possibly-nil pointer; dereference is checked at use). -/
def popFrameVM (st : VMState) : Except VmErr (Frame × VMState) :=
  match listGetAt st.frames (st.framesIndex - 1) with
  | none => .error (.goPanicV "index out of range")
  | some none => .error (.goPanicV "nil frame")
  | some (some f) => .ok (f, { st with framesIndex := st.framesIndex - 1 })

/-- `vm.isTruthy`: a TYPE switch (unlike the evaluator's identity switch): any
`Boolean` reports its payload, any `Nil` is falsy, everything else truthy. -/
def isTruthyVM : Value → Bool
  | .boolean b => b
  | .nilV _ => false
  | _ => true

/-- Modelled from the spec: `Value.Val` (not under `src/`) exposes the "raw
underlying representation" used by `executeComparison` on non-numbers —
numbers, strings and booleans by value, nil values through the shared
singleton, arrays and compiled functions by pointer. -/
def valEq : Value → Value → Bool
  | .number a, .number b => a == b
  | .strV a, .strV b => a == b
  | .boolean a, .boolean b => a == b
  | .nilV _, .nilV _ => true
  | .arrayV i, .arrayV j => i == j
  | .goNil, .goNil => true
  | _, _ => false

/-- `vm.nativeBoolToBooleanObject`. -/
def nativeBool (b : Bool) : Value := .boolean b

/-- `VM.executeBinaryNumberOperation`. -/
def execBinaryNumber (st : VMState) (op : Opcode) (leftValue rightValue : ℚ) :
    Except VmErr VMState :=
  match op with
  | .opAdd => pushVM st (.number (leftValue + rightValue))
  | .opSub => pushVM st (.number (leftValue - rightValue))
  | .opMul => pushVM st (.number (leftValue * rightValue))
  | .opDiv => pushVM st (.number (leftValue / rightValue))
  | _ => .error (.vmE ("unknown integer operator: " ++ toString (opByte op)))

/-- `VM.executeLogicalOperation` (both operands must be booleans; the result
is a freshly allocated Boolean). -/
def execLogical (st : VMState) (op : Opcode) (leftValue rightValue : Bool) :
    Except VmErr VMState :=
  match op with
  | .opAnd => pushVM st (.boolean (leftValue && rightValue))
  | .opOr => pushVM st (.boolean (leftValue || rightValue))
  | _ => .error (.vmE ("unknown integer operator: " ++ toString (opByte op)))

/-- `VM.executeBinaryStringOperation` (only `OpAdd`). -/
def execBinaryString (st : VMState) (op : Opcode) (leftValue rightValue : String) :
    Except VmErr VMState :=
  if op ≠ .opAdd then .error (.vmE ("unknown string operator: " ++ toString (opByte op)))
  else pushVM st (.strV (leftValue ++ rightValue))

/-- `VM.executeBinaryOperation`: pop right then left; numbers, booleans or
strings, anything else errors. -/
def execBinaryOperation (st : VMState) (op : Opcode) : Except VmErr VMState := do
  let (right, st) ← popVM st
  let (left, st) ← popVM st
  match left, right with
  | .number lv, .number rv => execBinaryNumber st op lv rv
  | .boolean lv, .boolean rv => execLogical st op lv rv
  | .strV lv, .strV rv => execBinaryString st op lv rv
  | _, _ =>
    .error (.vmE ("unsupported types for binary operation: " ++
                  left.typeTag ++ " " ++ right.typeTag))

/-- `VM.executeNumberComparison`. -/
def execNumberComparison (st : VMState) (op : Opcode) (leftValue rightValue : ℚ) :
    Except VmErr VMState :=
  match op with
  | .opEqual => pushVM st (nativeBool (rightValue == leftValue))
  | .opNotEqual => pushVM st (nativeBool (rightValue != leftValue))
  | .opGreater => pushVM st (nativeBool (decide (leftValue > rightValue)))
  | .opGreaterEqual => pushVM st (nativeBool (decide (leftValue ≥ rightValue)))
  | _ => .error (.vmE ("unknown operator: " ++ toString (opByte op)))

/-- `VM.executeComparison`: numeric when both are numbers, otherwise the raw
`Val()` comparison. -/
def execComparison (st : VMState) (op : Opcode) : Except VmErr VMState := do
  let (right, st) ← popVM st
  let (left, st) ← popVM st
  match left, right with
  | .number lv, .number rv => execNumberComparison st op lv rv
  | _, _ =>
    match op with
    | .opEqual => pushVM st (nativeBool (valEq right left))
    | .opNotEqual => pushVM st (nativeBool (!valEq right left))
    | _ =>
      .error (.vmE ("unknown operator: " ++ toString (opByte op) ++ " (" ++
                    left.typeTag ++ " " ++ right.typeTag ++ ")"))

/-- `VM.executeBangOperator`: a switch on `Val()` against `true`/`false` with
a `False` default. -/
def execBang (st : VMState) : Except VmErr VMState := do
  let (operand, st) ← popVM st
  match operand with
  | .boolean true => pushVM st (.boolean false)
  | .boolean false => pushVM st (.boolean true)
  | _ => pushVM st (.boolean false)

/-- `VM.executeMinusOperator`. -/
def execMinus (st : VMState) : Except VmErr VMState := do
  let (operand, st) ← popVM st
  match operand with
  | .number v => pushVM st (.number (-v))
  | _ => .error (.vmE ("unsupported type for negation: " ++ operand.typeTag))

/-- `VM.buildArray`: read `stack[startIndex..endIndex)` into a fresh array
allocation. -/
def buildArrayVM (st : VMState) (startIndex endIndex : Int) :
    Except VmErr (Value × VMState) := do
  let n := (endIndex - startIndex).toNat
  let elems ← (List.range n).mapM
    (fun i =>
      match listGetAt st.stack (startIndex + i) with
      | some v => Except.ok v
      | none => Except.error (VmErr.goPanicV "index out of range"))
  return (.arrayV st.arraysH.length, { st with arraysH := st.arraysH ++ [elems] })

/-- `VM.callFunction`: the callee sits below the arguments; it must be a
`CompiledFunction` with the exact arity; a new frame is pushed with base
pointer `sp - numArgs` and `sp` jumps over the declared locals. -/
def callFunctionVM (st : VMState) (numArgs : Nat) : Except VmErr VMState := do
  match listGetAt st.stack (st.sp - 1 - numArgs) with
  | none => .error (.goPanicV "index out of range")
  | some calleeV =>
    match calleeV with
    | .compiledFnV ins numLocals numParameters =>
      if numArgs ≠ numParameters then
        .error (.vmE ("wrong number of arguments: want=" ++ toString numParameters ++
                      ", got=" ++ toString numArgs))
      else do
        let frame := newFrame ins numLocals numParameters (st.sp - numArgs)
        let st ← pushFrameVM st frame
        return { st with sp := frame.basePointer + numLocals }
    | _ => .error (.vmE "calling non-function")

end Talang

namespace Talang

/-- One iteration of `VM.Run`'s fetch-decode-execute loop either halts (loop
condition false) or produces the next state. -/
inductive StepOut where
  | halt (st : VMState)
  | cont (st : VMState)
deriving Repr

/-- Adjust the current frame's instruction pointer by a delta (the source's
`vm.currentFrame().ip += k`). -/
def adjustIp (st : VMState) (d : Int) : Except VmErr VMState := do
  let frame ← currentFrameVM st
  setCurrentFrame st { frame with ip := frame.ip + d }

/-- Set the current frame's instruction pointer (jumps). -/
def setIpTo (st : VMState) (v : Int) : Except VmErr VMState := do
  let frame ← currentFrameVM st
  setCurrentFrame st { frame with ip := v }

/-- Execute one decoded opcode (the body of `VM.Run`'s switch).  `ins` is the
current frame's instruction slice and `ip` the (pre-incremented) instruction
pointer, both as read at the top of the loop iteration. -/
def execOpcode (st : VMState) (op : Opcode) (ins : List Nat) (ip : Int) :
    Except VmErr VMState := do
  let operandBytes := ins.drop (ip + 1).toNat
  match op with
  | .opConstant => do
    match readU16 operandBytes with
    | none => .error (.goPanicV "index out of range")
    | some constIndex => do
      let st ← adjustIp st 2
      match listGetAt st.constants constIndex with
      | none => .error (.goPanicV "index out of range")
      | some v => pushVM st v
  | .opPop => do
    let (_, st) ← popVM st
    return st
  | .opTrue => pushVM st (.boolean true)
  | .opFalse => pushVM st (.boolean false)
  | .opNil => pushVM st (.nilV none)
  | .opAdd => execBinaryOperation st op
  | .opSub => execBinaryOperation st op
  | .opMul => execBinaryOperation st op
  | .opDiv => execBinaryOperation st op
  | .opOr => execBinaryOperation st op
  | .opAnd => execBinaryOperation st op
  | .opEqual => execComparison st op
  | .opNotEqual => execComparison st op
  | .opGreaterEqual => execComparison st op
  | .opGreater => execComparison st op
  | .opBang => execBang st
  | .opMinus => execMinus st
  | .opJump => do
    match readU16 operandBytes with
    | none => .error (.goPanicV "index out of range")
    | some pos => setIpTo st ((pos : Int) - 1)
  | .opJumpNotTruthy => do
    match readU16 operandBytes with
    | none => .error (.goPanicV "index out of range")
    | some pos => do
      let st ← adjustIp st 2
      let (condition, st) ← popVM st
      if !isTruthyVM condition then setIpTo st ((pos : Int) - 1)
      else return st
  | .opSetGlobal => do
    match readU16 operandBytes with
    | none => .error (.goPanicV "index out of range")
    | some globalIndex => do
      let st ← adjustIp st 2
      let (v, st) ← popVM st
      match listSetAt st.globals (globalIndex : Int) v with
      | none => .error (.goPanicV "index out of range")
      | some globals => return { st with globals := globals }
  | .opGetGlobal => do
    match readU16 operandBytes with
    | none => .error (.goPanicV "index out of range")
    | some globalIndex => do
      let st ← adjustIp st 2
      match listGetAt st.globals (globalIndex : Int) with
      | none => .error (.goPanicV "index out of range")
      | some v => pushVM st v
  | .opArray => do
    match readU16 operandBytes with
    | none => .error (.goPanicV "index out of range")
    | some numElements => do
      let st ← adjustIp st 2
      let (array, st) ← buildArrayVM st (st.sp - numElements) st.sp
      let st := { st with sp := st.sp - numElements }
      pushVM st array
  | .opCall => do
    match readU8 operandBytes with
    | none => .error (.goPanicV "index out of range")
    | some numArgs => do
      let st ← adjustIp st 1
      callFunctionVM st numArgs
  | .opReturnValue => do
    let (returnValue, st) ← popVM st
    let (frame, st) ← popFrameVM st
    let st := { st with sp := frame.basePointer - 1 }
    pushVM st returnValue
  | .opReturn => do
    let (frame, st) ← popFrameVM st
    let st := { st with sp := frame.basePointer - 1 }
    pushVM st (.nilV none)
  | .opSetLocal => do
    match readU8 operandBytes with
    | none => .error (.goPanicV "index out of range")
    | some localIndex => do
      let st ← adjustIp st 1
      let frame ← currentFrameVM st
      let (v, st) ← popVM st
      match listSetAt st.stack (frame.basePointer + localIndex) v with
      | none => .error (.goPanicV "index out of range")
      | some stack => return { st with stack := stack }
  | .opGetLocal => do
    match readU8 operandBytes with
    | none => .error (.goPanicV "index out of range")
    | some localIndex => do
      let st ← adjustIp st 1
      let frame ← currentFrameVM st
      match listGetAt st.stack (frame.basePointer + localIndex) with
      | none => .error (.goPanicV "index out of range")
      | some v => pushVM st v

/-- One iteration of `VM.Run`: check the loop condition, pre-increment the
instruction pointer, fetch the opcode byte and dispatch.  A byte that decodes
to no opcode matches no switch case and the loop simply continues (faithful to
the default-less Go switch). -/
def stepVM (st : VMState) : Except VmErr StepOut := do
  let frame ← currentFrameVM st
  let ins := frame.fnInstructions
  if !(frame.ip < (ins.length : Int) - 1) then
    return .halt st
  else do
    let ip := frame.ip + 1
    let st ← setCurrentFrame st { frame with ip := ip }
    match listGetAt ins ip with
    | none => .error (.goPanicV "index out of range")
    | some opb =>
      match byteOp opb with
      | none => return .cont st
      | some op => do
        let st ← execOpcode st op ins ip
        return .cont st

/-- `VM.Run`: iterate `stepVM` to completion. -/
def runVM (fuel : Nat) : VMState → Except VmErr VMState :=
  Nat.rec (motive := fun _ => VMState → Except VmErr VMState)
    (fun _ => .error .fuelOut)
    (fun _ ih st =>
      match stepVM st with
      | .error e => .error e
      | .ok (.halt st') => .ok st'
      | .ok (.cont st') => ih st')
    fuel

/-- `VM.LastPoppedStackElem` (`stack[sp]`). -/
def lastPoppedStackElem (st : VMState) : Option Value :=
  listGetAt st.stack st.sp

end Talang

namespace Talang

/-- The tree-walking pipeline's observable: the value (or runtime error)
`Interpreter.Evaluate` returns for a program, from a fresh interpreter. -/
def interpObserve (p : Program) : EvalRes :=
  (evaluateProgram 1000 p newInterpreter).1

/-- The VM pipeline's observable: compile from a fresh compiler, run on a
fresh VM, and report the last-popped stack element (the value the repository
tests inspect), a compile error, or a VM error. -/
def vmObserve (p : Program) : Except String Value :=
  match compileProgram 1000 p with
  | .error e => .error ("compile error: " ++ e.msg)
  | .ok bc =>
    match runVM 10000 (vmNew bc) with
    | .error (.vmE m) => .error m
    | .error (.goPanicV m) => .error ("panic: " ++ m)
    | .error .fuelOut => .error "fuel exhausted"
    | .ok st =>
      match lastPoppedStackElem st with
      | some v => .ok v
      | none => .error "panic: index out of range"

/-- Whether `Parser.Parse` succeeds (the program itself projected away). -/
def parseOutcome (ts : List Token) : Except PErr Unit :=
  (parseTokens ts).map (fun _ => ())

/-- The source text of the repository's own test
`fn identity(x) { return x; } identity(5);` (interpreter_test.go expects 5). -/
def c1Source : String := "fn identity(x) { return x; } identity(5);"

/-- The parsed program of `c1Source`. -/
def c1Prog : Program := ((parseTokens (lexString c1Source)).toOption).getD []

/-- Concrete eagerness scenario for the evaluator: with short-circuiting,
`x` would keep 1; the eager evaluator assigns 2. -/
def c3Source : String := "let x = 1; false and (x = 2); print x;"

/-- The parsed program of `c3Source`. -/
def c3Prog : Program := ((parseTokens (lexString c3Source)).toOption).getD []

/-- Concrete eagerness scenario for the compiled back-end. -/
def c3VmSource : String := "false and true;"

/-- The parsed program of `c3VmSource`. -/
def c3VmProg : Program := ((parseTokens (lexString c3VmSource)).toOption).getD []

/-- An interpreter state owning one empty array (for `at(arr, 0)`). -/
def c4State : IState := { newInterpreter with arrays := [[]] }

/-- A class hierarchy whose subclass instance must reach a superclass
method. -/
def c6Source : String :=
  "class A { m() { return 1; } } class B < A { } let b = B(); print b.m();"

/-- The parsed program of `c6Source`. -/
def c6Prog : Program := ((parseTokens (lexString c6Source)).toOption).getD []

/-- A two-frame VM state about to return the number 7 from a call at base
pointer 1. -/
def c8State : VMState :=
  { sp := 2, constants := [],
    stack := [.goNil, .number 7, .goNil],
    globals := [],
    frames := [some (newFrame [] 0 0 0), some (newFrame [] 0 0 1), none],
    framesIndex := 2, arraysH := [] }

/-- `c8State` after popping the return value. -/
def c8St1 : VMState := { c8State with sp := 1 }

/-- The frame `OpReturnValue` pops in `c8State`. -/
def c8Fr : Frame := newFrame [] 0 0 1

/-- `c8St1` after popping the frame. -/
def c8St2 : VMState := { c8St1 with framesIndex := 1 }

/-- The stack after the return value is pushed at the restored `sp`. -/
def c8Stk : List Value := [.number 7, .number 7, .goNil]

/-- Every method of an evaluator pack leaves the current-environment pointer
where it found it, on every exit path (value, `Return` signal, or error). -/
def PreservesCur (fns : InterpFns) : Prop :=
  (∀ e s, ((fns.evalExpr e s).2).cur = s.cur) ∧
  (∀ es s, ((fns.evalExprList es s).2).cur = s.cur) ∧
  (∀ st s, ((fns.evalStmt st s).2).cur = s.cur) ∧
  (∀ c b s, ((fns.evalWhileLoop c b s).2).cur = s.cur) ∧
  (∀ stmts envId s, ((fns.executeBlock stmts envId s).2).cur = s.cur) ∧
  (∀ stmts s, ((fns.blockLoop stmts s).2).cur = s.cur) ∧
  (∀ fn args s, ((fns.callFunction fn args s).2).cur = s.cur) ∧
  (∀ ps envId s, ((fns.bindParams ps envId s).2).cur = s.cur) ∧
  (∀ kid args s, ((fns.ctorInstance kid args s).2).cur = s.cur)


/-- `Environment.Define` never touches the interpreter's current-environment
pointer. -/
theorem cur_envDefineVar (s : IState) (envId : Nat) (k : String) (v : Value) :
    (envDefineVar s envId k v).cur = s.cur := by
  unfold envDefineVar
  cases h : s.envs.get? envId <;> simp

/-- `Instance.Set` never touches the current-environment pointer. -/
theorem cur_instSet (s : IState) (instId : Nat) (k : String) (v : Value) :
    (instSet s instId k v).cur = s.cur := by
  unfold instSet
  cases h : s.insts.get? instId <;> simp

/-- `Function.Bind` allocates but never touches the current-environment
pointer. -/
theorem cur_bindFn (s : IState) (fn : FunData) (instId : Nat) :
    ((bindFn s fn instId).2).cur = s.cur := by
  simp [bindFn, allocEnv, allocFn, cur_envDefineVar]

/-- `Instance.Get` never touches the current-environment pointer. -/
theorem cur_instGet (s : IState) (instId : Nat) (key : String) :
    ((instGet s instId key).2).cur = s.cur := by
  unfold instGet
  cases h : s.insts.get? instId with
  | none => simp
  | some inst =>
    simp only []
    cases h2 : alookup inst.fields key with
    | some v => simp
    | none =>
      simp only []
      cases h3 : findMethodOf s inst.klass key with
      | some m => simp [cur_bindFn]
      | none => simp

/-- No builtin function moves the current-environment pointer. -/
theorem cur_callBuiltin (s : IState) (b : BuiltinKind) (args : List Value) :
    ((callBuiltin s b args).2).cur = s.cur := by
  cases b <;>
    simp only [callBuiltin] <;>
    (repeat' split) <;>
    simp_all [callBuiltin.freshNilRes, freshNil, allocArray]

/-- `Environment.Assign` updates a binding in place along the enclosing
chain; it never moves the current-environment pointer. -/
theorem cur_envAssignVar (k : String) (v : Value) :
    ∀ (chain : Nat) (s : IState) (envId : Nat) (s' : IState),
      envAssignVar s chain envId k v = some s' → s'.cur = s.cur := by
  intro chain
  induction chain with
  | zero => intro s envId s' h; simp [envAssignVar] at h
  | succ n ih =>
    intro s envId s' h
    unfold envAssignVar at h
    cases hg : s.envs.get? envId with
    | none => rw [hg] at h; simp at h
    | some e =>
      rw [hg] at h
      simp only [] at h
      cases hl : alookup e.values k with
      | some w =>
        simp only [hl] at h
        cases h
        simp
      | none =>
        simp only [hl] at h
        cases he : e.enclosing with
        | some parent =>
          simp only [he] at h
          exact ih s parent s' h
        | none => simp only [he] at h; cases h

theorem cur_allocEnv {s : IState} {e : Option Nat} {i : Nat} {s' : IState}
    (h : allocEnv s e = (i, s')) : s'.cur = s.cur := by cases h; rfl

theorem cur_allocFn {s : IState} {f : FunData} {i : Nat} {s' : IState}
    (h : allocFn s f = (i, s')) : s'.cur = s.cur := by cases h; rfl

theorem cur_allocKlass {s : IState} {k : KlassData} {i : Nat} {s' : IState}
    (h : allocKlass s k = (i, s')) : s'.cur = s.cur := by cases h; rfl

theorem cur_allocInst {s : IState} {d : InstData} {i : Nat} {s' : IState}
    (h : allocInst s d = (i, s')) : s'.cur = s.cur := by cases h; rfl

theorem cur_allocArray {s : IState} {es : List Value} {v : Value} {s' : IState}
    (h : allocArray s es = (v, s')) : s'.cur = s.cur := by cases h; rfl

theorem cur_instGetEq {s : IState} {i : Nat} {k : String} {o : Option Value} {s' : IState}
    (h : instGet s i k = (o, s')) : s'.cur = s.cur := by
  have h2 := cur_instGet s i k; rw [h] at h2; exact h2

theorem cur_callBuiltinEq {s : IState} {b : BuiltinKind} {a : List Value}
    {r : EvalRes} {s' : IState}
    (h : callBuiltin s b a = (r, s')) : s'.cur = s.cur := by
  have h2 := cur_callBuiltin s b a; rw [h] at h2; exact h2

theorem cur_bindFnEq {s : IState} {f : FunData} {i : Nat} {v : Value} {s' : IState}
    (h : bindFn s f i = (v, s')) : s'.cur = s.cur := by
  have h2 := cur_bindFn s f i; rw [h] at h2; exact h2

theorem cur_allocEnvP (s : IState) (e : Option Nat) :
    ((allocEnv s e).2).cur = s.cur := rfl

theorem cur_allocInstP (s : IState) (d : InstData) :
    ((allocInst s d).2).cur = s.cur := rfl

theorem cur_bindFnP (s : IState) (f : FunData) (i : Nat) :
    ((bindFn s f i).2).cur = s.cur := cur_bindFn s f i

theorem preservesFail : PreservesCur interpFail := by
  refine ⟨?_, ?_, ?_, ?_, ?_, ?_, ?_, ?_, ?_⟩ <;> intros <;> rfl

section StepFields
variable (rec : InterpFns)

theorem stepEB :
    ∀ l i s, (((interpStep rec).executeBlock l i s).2).cur = s.cur := by
  intro l i s
  simp only [interpStep]

theorem stepBL (hS : ∀ st s, ((rec.evalStmt st s).2).cur = s.cur)
    (hBL : ∀ l s, ((rec.blockLoop l s).2).cur = s.cur) :
    ∀ l s, (((interpStep rec).blockLoop l s).2).cur = s.cur := by
  have hS' : ∀ st s r s', rec.evalStmt st s = (r, s') → s'.cur = s.cur := by
    intro st s r s' hq; have h2 := hS st s; rw [hq] at h2; exact h2
  have hBL' : ∀ l s r s', rec.blockLoop l s = (r, s') → s'.cur = s.cur := by
    intro l s r s' hq; have h2 := hBL l s; rw [hq] at h2; exact h2
  intro l s
  simp only [interpStep]
  (repeat' split) <;> solve_by_elim [Eq.trans]

theorem stepEL (hE : ∀ e s, ((rec.evalExpr e s).2).cur = s.cur)
    (hEL : ∀ es s, ((rec.evalExprList es s).2).cur = s.cur) :
    ∀ es s, (((interpStep rec).evalExprList es s).2).cur = s.cur := by
  have hE' : ∀ e s r s', rec.evalExpr e s = (r, s') → s'.cur = s.cur := by
    intro e s r s' hq; have h2 := hE e s; rw [hq] at h2; exact h2
  have hEL' : ∀ es s r s', rec.evalExprList es s = (r, s') → s'.cur = s.cur := by
    intro es s r s' hq; have h2 := hEL es s; rw [hq] at h2; exact h2
  intro es s
  simp only [interpStep]
  (repeat' split) <;> (try simp only [hE, hEL]) <;> solve_by_elim [Eq.trans]

theorem stepW (hE : ∀ e s, ((rec.evalExpr e s).2).cur = s.cur)
    (hS : ∀ st s, ((rec.evalStmt st s).2).cur = s.cur)
    (hW : ∀ c b s, ((rec.evalWhileLoop c b s).2).cur = s.cur) :
    ∀ c b s, (((interpStep rec).evalWhileLoop c b s).2).cur = s.cur := by
  have hE' : ∀ e s r s', rec.evalExpr e s = (r, s') → s'.cur = s.cur := by
    intro e s r s' hq; have h2 := hE e s; rw [hq] at h2; exact h2
  have hS' : ∀ st s r s', rec.evalStmt st s = (r, s') → s'.cur = s.cur := by
    intro st s r s' hq; have h2 := hS st s; rw [hq] at h2; exact h2
  intro c b s
  simp only [interpStep]
  (repeat' split) <;> (try simp only [hE, hS, hW]) <;> solve_by_elim [Eq.trans]

theorem stepCF (hBP : ∀ ps envId s, ((rec.bindParams ps envId s).2).cur = s.cur)
    (hEB : ∀ stmts envId s, ((rec.executeBlock stmts envId s).2).cur = s.cur) :
    ∀ fn args s, (((interpStep rec).callFunction fn args s).2).cur = s.cur := by
  have hBP' : ∀ ps envId s r s', rec.bindParams ps envId s = (r, s') → s'.cur = s.cur := by
    intro ps envId s r s' hq; have h2 := hBP ps envId s; rw [hq] at h2; exact h2
  have hEB' : ∀ stmts envId s r s', rec.executeBlock stmts envId s = (r, s') → s'.cur = s.cur := by
    intro stmts envId s r s' hq; have h2 := hEB stmts envId s; rw [hq] at h2; exact h2
  intro fn args s
  simp only [interpStep]
  (repeat' split) <;>
    first
      | solve_by_elim [Eq.trans, cur_allocEnvP]
      | exact Eq.trans (hEB' _ _ _ _ _ (by assumption))
          (Eq.trans (hBP' _ _ _ _ _ (by assumption)) (cur_allocEnvP _ _))

theorem stepBP (hE : ∀ e s, ((rec.evalExpr e s).2).cur = s.cur)
    (hBP : ∀ ps envId s, ((rec.bindParams ps envId s).2).cur = s.cur) :
    ∀ ps envId s, (((interpStep rec).bindParams ps envId s).2).cur = s.cur := by
  have hE' : ∀ e s r s', rec.evalExpr e s = (r, s') → s'.cur = s.cur := by
    intro e s r s' hq; have h2 := hE e s; rw [hq] at h2; exact h2
  intro ps envId s
  simp only [interpStep]
  (repeat' split) <;> (try simp only [hE, hBP, cur_envDefineVar]) <;>
    solve_by_elim [Eq.trans, cur_envDefineVar]

theorem stepCI (hCF : ∀ fn args s, ((rec.callFunction fn args s).2).cur = s.cur) :
    ∀ kid args s, (((interpStep rec).ctorInstance kid args s).2).cur = s.cur := by
  have hCF' : ∀ fn args s r s', rec.callFunction fn args s = (r, s') → s'.cur = s.cur := by
    intro fn args s r s' hq; have h2 := hCF fn args s; rw [hq] at h2; exact h2
  intro kid args s
  simp only [interpStep]
  (repeat' split) <;> (try simp only [hCF, cur_allocInstP, cur_bindFnP]) <;>
    solve_by_elim [Eq.trans, cur_allocInstP, cur_bindFnP, cur_allocInst, cur_bindFnEq]

theorem stepS (hE : ∀ e s, ((rec.evalExpr e s).2).cur = s.cur)
    (hS : ∀ st s, ((rec.evalStmt st s).2).cur = s.cur)
    (hW : ∀ c b s, ((rec.evalWhileLoop c b s).2).cur = s.cur)
    (hEB : ∀ stmts envId s, ((rec.executeBlock stmts envId s).2).cur = s.cur) :
    ∀ st s, (((interpStep rec).evalStmt st s).2).cur = s.cur := by
  have hE' : ∀ e s r s', rec.evalExpr e s = (r, s') → s'.cur = s.cur := by
    intro e s r s' hq; have h2 := hE e s; rw [hq] at h2; exact h2
  have hS' : ∀ st s r s', rec.evalStmt st s = (r, s') → s'.cur = s.cur := by
    intro st s r s' hq; have h2 := hS st s; rw [hq] at h2; exact h2
  intro st s
  simp only [interpStep]
  (repeat' split) <;> (try simp only [hE, hS, hW, hEB, cur_envDefineVar]) <;>
    solve_by_elim [Eq.trans, cur_envDefineVar, cur_allocEnv, cur_allocFn, cur_allocKlass]

set_option maxHeartbeats 2000000 in
theorem stepE (hE : ∀ e s, ((rec.evalExpr e s).2).cur = s.cur)
    (hEL : ∀ es s, ((rec.evalExprList es s).2).cur = s.cur)
    (hCF : ∀ fn args s, ((rec.callFunction fn args s).2).cur = s.cur)
    (hCI : ∀ kid args s, ((rec.ctorInstance kid args s).2).cur = s.cur) :
    ∀ e s, (((interpStep rec).evalExpr e s).2).cur = s.cur := by
  have hE' : ∀ e s r s', rec.evalExpr e s = (r, s') → s'.cur = s.cur := by
    intro e s r s' hq; have h2 := hE e s; rw [hq] at h2; exact h2
  have hEL' : ∀ es s r s', rec.evalExprList es s = (r, s') → s'.cur = s.cur := by
    intro es s r s' hq; have h2 := hEL es s; rw [hq] at h2; exact h2
  intro e s
  simp only [interpStep]
  (repeat' split) <;> (try dsimp only) <;>
    first
      | rfl
      | solve_by_elim [Eq.trans, cur_allocArray, cur_envAssignVar, cur_instGetEq,
          cur_instSet, cur_callBuiltin, hE, hEL, hCF, hCI]
      | (dsimp only; exact hE' _ _ _ _ (by assumption))
      | (refine Eq.trans (hEL' _ _ _ _ (by assumption)) ?_ ; dsimp only;
         exact hE' _ _ _ _ (by assumption))
      | (refine Eq.trans (cur_callBuiltin _ _ _)
            (Eq.trans (hEL' _ _ _ _ (by assumption)) ?_) ; dsimp only;
         exact hE' _ _ _ _ (by assumption))
      | (refine Eq.trans (hCF _ _ _) ?_ ; dsimp only;
         exact hE' _ _ _ _ (by assumption))
      | (refine Eq.trans (hCI _ _ _) ?_ ; dsimp only;
         exact hE' _ _ _ _ (by assumption))
      | exact Eq.trans (cur_allocArray (by assumption)) (hEL' _ _ _ _ (by assumption))
      | exact Eq.trans (cur_envAssignVar _ _ _ _ _ _ (by assumption))
          (hE' _ _ _ _ (by assumption))
      | exact Eq.trans (cur_instGetEq (by assumption)) (hE' _ _ _ _ (by assumption))
      | exact Eq.trans (cur_instSet _ _ _ _)
          (Eq.trans (hE' _ _ _ _ (by assumption)) (hE' _ _ _ _ (by assumption)))

end StepFields

/-- One unfolding of the evaluator pack preserves `PreservesCur`. -/
theorem preservesStep {rec : InterpFns} (h : PreservesCur rec) :
    PreservesCur (interpStep rec) := by
  obtain ⟨hE, hEL, hS, hW, hEB, hBL, hCF, hBP, hCI⟩ := h
  exact ⟨stepE rec hE hEL hCF hCI, stepEL rec hE hEL, stepS rec hE hS hW hEB,
         stepW rec hE hS hW, stepEB rec, stepBL rec hS hBL, stepCF rec hBP hEB,
         stepBP rec hE hBP, stepCI rec hCF⟩

/-- At every recursion budget, every evaluator method restores the
current-environment pointer on every exit path. -/
theorem preservesAt : ∀ fuel, PreservesCur (interpAt fuel) := by
  intro fuel
  induction fuel with
  | zero => exact preservesFail
  | succ n ih => exact preservesStep ih

/-- One step of `Interpreter.evalProgram`. -/
theorem evalProgramStmts_succ (n : Nat) (p : List Stmt) (s : IState) :
    evalProgramStmts (n + 1) p s =
      match p with
      | [] => (.ok .goNil, s)
      | st :: rest =>
        match (interpAt n).evalStmt st s with
        | (.error err, s') => (.error err, s')
        | (.ok v, s') =>
          match rest with
          | [] => (.ok v, s')
          | _ => evalProgramStmts n rest s' := rfl

/-- `Interpreter.evalProgram` leaves the current-environment pointer
unchanged. -/
theorem evalProgramStmts_cur :
    ∀ fuel p s, ((evalProgramStmts fuel p s).2).cur = s.cur := by
  intro fuel
  induction fuel with
  | zero => intro p s; rfl
  | succ n ih =>
    intro p s
    have hS' : ∀ st s r s', (interpAt n).evalStmt st s = (r, s') → s'.cur = s.cur := by
      intro st s r s' hq
      have h2 := (preservesAt n).2.2.1 st s
      rw [hq] at h2; exact h2
    have ih' : ∀ p s r s', evalProgramStmts n p s = (r, s') → s'.cur = s.cur := by
      intro p s r s' hq; have h2 := ih p s; rw [hq] at h2; exact h2
    rw [evalProgramStmts_succ]
    (repeat' split) <;> solve_by_elim [Eq.trans]

/-- **C7**: the evaluator runs every block statement by installing a freshly
allocated environment whose `enclosing` is the environment that was current;
`executeBlock` restores the previously current environment on every exit
path (normal completion, `Return` signal, or runtime error); and after
`Interpreter.Evaluate` on a whole program — whether it yields a value or an
error — the current environment is the one from before the call. -/
theorem c7_block_env_swap_restored :
    (∀ fuel stmts s, evalStmt (fuel + 1) (.block stmts) s =
        executeBlock fuel stmts (allocEnv s (some s.cur)).1
          (allocEnv s (some s.cur)).2) ∧
    (∀ s : IState, ((allocEnv s (some s.cur)).2).envs.get?
        (allocEnv s (some s.cur)).1 = some ⟨[], some s.cur⟩) ∧
    (∀ fuel stmts envId s,
        ((executeBlock fuel stmts envId s).2).cur = s.cur) ∧
    (∀ fuel st s, ((evalStmt fuel st s).2).cur = s.cur) ∧
    (∀ fuel p s, ((evaluateProgram fuel p s).2).cur = s.cur) := by
  refine ⟨?_, ?_, ?_, ?_, ?_⟩
  · intro fuel stmts s; rfl
  · intro s; simp [allocEnv, List.get?_concat_length]
  · intro fuel stmts envId s; exact (preservesAt fuel).2.2.2.2.1 stmts envId s
  · intro fuel st s; exact (preservesAt fuel).2.2.1 st s
  · intro fuel p s; exact evalProgramStmts_cur fuel p s

/-- C1: the two back-ends do NOT agree on
`fn identity(x) { return x; } identity(5);`, a program inside the claimed
intersection (first-class functions with calls): the source lexes and parses,
the tree-walking evaluator yields the number 5 (as the repository's own test
expects), but the compiled program fails in the VM with
"wrong number of arguments: want=0, got=1" — the compiler never sets
`NumParameters`/`NumLocals` on the `CompiledFunction` and defines parameters
as flat global symbols, so every call that passes an argument is rejected by
`VM.callFunction`'s arity check. -/
theorem c1_evaluator_vm_divergence_on_function_call :
    parseOutcome (lexString c1Source) = .ok () ∧
    interpObserve c1Prog = .ok (.number 5) ∧
    vmObserve c1Prog = .error "wrong number of arguments: want=0, got=1" :=
  ⟨by decide, by decide, by decide⟩

/-- C5: a `for` statement is REJECTED by the parser.  The repository's own
tests (parser_test.go `TestParseConditionStatement`, interpreter_test.go
`TestForStmt`) expect `for (let a = 0; a < 3; a = a + 1) { b = a; }` to lower
to a block-plus-while, but no parser production accepts the `For` keyword
token: the statement falls through to `expressionStatement`, `primary`
matches nothing, and `expect(Semicolon)` raises the ParseError
"expected ';' after value.". -/
theorem c5_for_statement_parse_error :
    parseOutcome (lexString "for (let a = 0; a < 3; a = a + 1)  { b = a; } b;") =
      .error (.parse "expected ';' after value.") := by decide

/-- C10: parsing the garbage input `;` succeeds — `primary` returns the Go
`nil` expression without raising any ParseError, `expressionStatement`
consumes the semicolon, and `Parse` returns a one-statement program whose
`ExprStmt.Expression` is nil. -/
theorem c10_parser_accepts_nil_expression :
    parseTokens [⟨.semicolon, ";"⟩, ⟨.eof, ""⟩] = .ok [.exprStmt .nilE] := rfl

-- ——— shared helpers ———

/-- One unfolding of the evaluator pack at a successor budget. -/
theorem interpAt_succ (n : Nat) : interpAt (n + 1) = interpStep (interpAt n) := rfl

/-- Inverting a successful `VM.pop`. -/
theorem popVM_ok {st : VMState} {v : Value} {st' : VMState}
    (h : popVM st = .ok (v, st')) :
    st' = { st with sp := st.sp - 1 } := by
  unfold popVM at h
  cases hg : listGetAt st.stack (st.sp - 1) with
  | none => rw [hg] at h; cases h
  | some w => rw [hg] at h; cases h; rfl

/-- Inverting a successful `VM.popFrame`. -/
theorem popFrameVM_ok {st : VMState} {f : Frame} {st' : VMState}
    (h : popFrameVM st = .ok (f, st')) :
    st' = { st with framesIndex := st.framesIndex - 1 } := by
  unfold popFrameVM at h
  cases hg : listGetAt st.frames (st.framesIndex - 1) with
  | none => rw [hg] at h; cases h
  | some of =>
    cases of with
    | none => rw [hg] at h; cases h
    | some g => rw [hg] at h; cases h; rfl

/-- Reading back the slot a checked write just set. -/
theorem listSetAt_get {α : Type} {l : List α} {i : Int} {v : α} {l' : List α}
    (h : listSetAt l i v = some l') : listGetAt l' i = some v := by
  unfold listSetAt at h
  split at h
  · rename_i hi
    cases hg : l.get? i.toNat with
    | none => rw [hg] at h; cases h
    | some w =>
      rw [hg] at h; cases h
      unfold listGetAt
      rw [if_pos hi]
      rw [List.get?_set_eq, hg]
      rfl
  · cases h

-- ——— C2 ———

/-- C2 counterexample: on the evaluator, `==`/`!=` on two Strings do not
compare by value — `evalBinaryString` raises a runtime "unknown operator"
error for every operator except `+`, so `"a" == "a"` errors instead of
producing `true`. -/
theorem c2_counterexample_string_equality_errors :
    binaryOp ⟨.equal, "=="⟩ (.strV "a") (.strV "a") =
      .error ⟨"unknown operator: String == String"⟩ ∧
    binaryOp ⟨.notEqual, "!="⟩ (.strV "a") (.strV "b") =
      .error ⟨"unknown operator: String != String"⟩ :=
  ⟨rfl, rfl⟩

/-- C2 (amended): the evaluator's `==`/`!=` compares Numbers by numeric
value; on two Strings EVERY operator except `+` — including `==`/`!=` — is a
runtime error (not a by-value Boolean); every other operand pair falls
through to Go interface identity (`identityEq`), which is `false` whenever
the operand types differ. -/
theorem c2_equality_dispatch :
    (∀ a b : ℚ,
        binaryOp ⟨.equal, "=="⟩ (.number a) (.number b) =
          .ok (.boolean (decide (a = b))) ∧
        binaryOp ⟨.notEqual, "!="⟩ (.number a) (.number b) =
          .ok (.boolean (decide (a ≠ b)))) ∧
    (∀ x y : String,
        binaryOp ⟨.equal, "=="⟩ (.strV x) (.strV y) =
          .error ⟨"unknown operator: String == String"⟩ ∧
        binaryOp ⟨.notEqual, "!="⟩ (.strV x) (.strV y) =
          .error ⟨"unknown operator: String != String"⟩) ∧
    (∀ l r : Value, ¬(l.typeTag = "Number" ∧ r.typeTag = "Number") →
        ¬(l.typeTag = "String" ∧ r.typeTag = "String") →
        binaryOp ⟨.equal, "=="⟩ l r = .ok (.boolean (identityEq l r)) ∧
        binaryOp ⟨.notEqual, "!="⟩ l r = .ok (.boolean (!identityEq l r))) ∧
    (∀ l r : Value, l.typeTag ≠ r.typeTag → identityEq l r = false) := by
  refine ⟨fun a b => ⟨rfl, rfl⟩, fun x y => ⟨rfl, rfl⟩, ?_, ?_⟩
  · intro l r h1 h2
    cases l <;> cases r <;> simp_all [binaryOp, Value.typeTag]
  · intro l r h
    cases l <;> cases r <;> simp_all [identityEq, Value.typeTag]

-- ——— C3 ———

/-- C3: the logical operators are eager on both back-ends.  The general
equations show the tree-walking evaluator always evaluates the right operand
(with its state effects) after a successful left operand, even when the left
value alone decides the outcome, combining the operands' truthiness into a
Boolean; concretely, after `false and (x = 2)` the variable `x` holds `2`
(short-circuiting would have kept `1`).  The compiler emits the code of both
operands followed by a single `OpAnd`/`OpOr`, and the VM evaluates
`false and true` to `false` from both operand values. -/
theorem c3_logical_eager_both_operands :
    (∀ fuel l r s lv s1 e s2,
        evalExpr fuel l s = (.ok lv, s1) →
        evalExpr fuel r s1 = (.error e, s2) →
        evalExpr (fuel + 1) (.logical l ⟨.andK, "and"⟩ r) s = (.error e, s2)) ∧
    (∀ fuel l r s lv s1 rv s2,
        evalExpr fuel l s = (.ok lv, s1) →
        evalExpr fuel r s1 = (.ok rv, s2) →
        evalExpr (fuel + 1) (.logical l ⟨.andK, "and"⟩ r) s =
          (.ok (.boolean (isTruthy lv && isTruthy rv)), s2)) ∧
    (∀ fuel l r s lv s1 e s2,
        evalExpr fuel l s = (.ok lv, s1) →
        evalExpr fuel r s1 = (.error e, s2) →
        evalExpr (fuel + 1) (.logical l ⟨.orK, "or"⟩ r) s = (.error e, s2)) ∧
    (∀ fuel l r s lv s1 rv s2,
        evalExpr fuel l s = (.ok lv, s1) →
        evalExpr fuel r s1 = (.ok rv, s2) →
        evalExpr (fuel + 1) (.logical l ⟨.orK, "or"⟩ r) s =
          (.ok (.boolean (isTruthy lv || isTruthy rv)), s2)) ∧
    (evaluateProgram 1000 c3Prog newInterpreter).2.output = ["2"] ∧
    (compileProgram 1000 c3VmProg).toOption.map (fun bc => bc.instructions) =
      some [opByte .opFalse, opByte .opTrue, opByte .opAnd, opByte .opPop] ∧
    vmObserve c3VmProg = .ok (.boolean false) := by
  refine ⟨?_, ?_, ?_, ?_, by decide, by decide, by decide⟩ <;>
  · intro fuel l r s lv s1 w s2 h1 h2
    simp only [evalExpr] at h1 h2 ⊢
    show ((interpStep (interpAt fuel)).evalExpr _ _) = _
    simp only [interpStep, h1, h2]

-- ——— C4 ———

/-- C4 counterexample: a `Nil` produced by a builtin (here `at(arr, i)` on an
out-of-range index) is a fresh `&valuer.Nil{}` allocation, distinct from the
interpreter's `Nil` singleton; `isTruthy`'s identity switch therefore
classifies it TRUTHY, and `!` on it yields `false` — the spec's "nil is
falsy" does not hold for these values. -/
theorem c4_counterexample_builtin_nil_truthy :
    (callBuiltin c4State .atB [.arrayV 0, .number 0]).1 = .ok (.nilV (some 0)) ∧
    isTruthy (.nilV (some 0)) = true ∧
    evalBangOperator (.nilV (some 0)) = .boolean false := by
  decide

/-- C4 (amended): the evaluator's falsy values are exactly the Boolean
`false` singleton and the `Nil` SINGLETON — nil results of builtins are
different allocations and are truthy (the number `0` is truthy as claimed);
`!` inverts this classification, and `if`/`while` conditions consult the
same `isTruthy`. -/
theorem c4_truthiness_identity_switch :
    (∀ v : Value, isTruthy v = false ↔ (v = .boolean false ∨ v = .nilV none)) ∧
    (∀ v : Value, evalBangOperator v = .boolean (!isTruthy v)) ∧
    isTruthy (.number 0) = true ∧
    (∀ k, isTruthy (.nilV (some k)) = true) ∧
    (∀ fuel c t e s cv s', evalExpr fuel c s = (.ok cv, s') →
        isTruthy cv = true →
        evalStmt (fuel + 1) (.ifS c t e) s = evalStmt fuel t s') ∧
    (∀ fuel c t s cv s', evalExpr fuel c s = (.ok cv, s') →
        isTruthy cv = false →
        evalStmt (fuel + 1) (.ifS c t .nilS) s = (.ok (.nilV none), s')) ∧
    (∀ fuel c b s cv s', evalExpr fuel c s = (.ok cv, s') →
        isTruthy cv = false →
        evalWhileLoop (fuel + 1) c b s = (.ok (.nilV none), s')) := by
  refine ⟨?_, ?_, rfl, fun k => rfl, ?_, ?_, ?_⟩
  · intro v
    cases v with
    | boolean b => cases b <;> simp [isTruthy]
    | nilV o => cases o <;> simp [isTruthy]
    | _ => simp [isTruthy]
  · intro v
    cases v with
    | boolean b => cases b <;> rfl
    | nilV o => cases o <;> rfl
    | _ => rfl
  · intro fuel c t e s cv s' h1 h2
    simp only [evalExpr, evalStmt] at h1 ⊢
    show ((interpStep (interpAt fuel)).evalStmt _ _) = _
    simp only [interpStep, h1, h2, if_true]
  · intro fuel c t s cv s' h1 h2
    simp only [evalExpr, evalStmt] at h1 ⊢
    show ((interpStep (interpAt fuel)).evalStmt _ _) = _
    simp only [interpStep, h1, h2]
    rfl
  · intro fuel c b s cv s' h1 h2
    simp only [evalExpr, evalWhileLoop] at h1 ⊢
    show ((interpStep (interpAt fuel)).evalWhileLoop _ _ _) = _
    simp only [interpStep, h1, h2]
    rfl

-- ——— C6 ———

/-- C6 counterexample: with `class A { m() { return 1; } }` and
`class B < A { }`, the program parses, but `B()`'s instance cannot resolve
`m` — the evaluator reports the (misspelt) "undefined propterty" runtime
error instead of finding the method on the superclass. -/
theorem c6_counterexample_superclass_method_lost :
    parseOutcome (lexString c6Source) = .ok () ∧
    interpObserve c6Prog = .error ⟨"undefined propterty: want m"⟩ := by
  decide

/-- C6 (amended): `valuer.Klass` stores no superclass and
`Klass.FindMethod` consults only the class's OWN method table; a property
access resolves the instance's fields, then that one table — the bound
method on a hit, a miss otherwise; and evaluating a class declaration is
entirely independent of the declared superclass. -/
theorem c6_method_lookup_no_superclass :
    (∀ s kid key, findMethodOf s kid key =
        (s.klasses.get? kid).bind (fun k => alookup k.methods key)) ∧
    (∀ s instId key inst m, s.insts.get? instId = some inst →
        alookup inst.fields key = none →
        findMethodOf s inst.klass key = some m →
        instGet s instId key =
          (some (bindFn s m instId).1, (bindFn s m instId).2)) ∧
    (∀ s instId key inst, s.insts.get? instId = some inst →
        alookup inst.fields key = none →
        findMethodOf s inst.klass key = none →
        instGet s instId key = (none, s)) ∧
    (∀ fuel name sup1 sup2 methods s,
        evalStmt fuel (.classStmt name sup1 methods) s =
          evalStmt fuel (.classStmt name sup2 methods) s) := by
  refine ⟨?_, ?_, ?_, ?_⟩
  · intro s kid key
    unfold findMethodOf
    cases s.klasses.get? kid <;> rfl
  · intro s instId key inst m h1 h2 h3
    simp only [instGet, h1, h2, h3]
  · intro s instId key inst h1 h2 h3
    simp only [instGet, h1, h2, h3]
  · intro fuel name sup1 sup2 methods s
    cases fuel <;> rfl

-- ——— C8 ———

/-- C8: executing `OpReturnValue` pops the return value, pops the current
frame, resets `sp` to the popped frame's `basePointer - 1` (discarding the
callee's locals, arguments and the function value) and pushes the return
value: afterwards `sp = basePointer - 1 + 1`, the frame index is one lower,
and the top of stack holds the returned value. -/
theorem c8_opReturnValue_stack_discipline
    (st st1 st2 : VMState) (ins : List Nat) (ip : Int) (v : Value)
    (fr : Frame) (stk : List Value)
    (hpop : popVM st = .ok (v, st1))
    (hframe : popFrameVM st1 = .ok (fr, st2))
    (hcap : ¬ fr.basePointer - 1 ≥ 2048)
    (hset : listSetAt st2.stack (fr.basePointer - 1) v = some stk) :
    execOpcode st .opReturnValue ins ip =
      .ok { st2 with stack := stk, sp := fr.basePointer - 1 + 1 } ∧
    st2.framesIndex = st.framesIndex - 1 ∧
    listGetAt stk (fr.basePointer - 1 + 1 - 1) = some v := by
  refine ⟨?_, ?_, ?_⟩
  · simp only [execOpcode]
    rw [hpop]
    simp only [bind, Except.bind]
    rw [hframe]
    simp only [pushVM]
    rw [if_neg hcap, hset]
  · rw [popFrameVM_ok hframe, popVM_ok hpop]
  · have : fr.basePointer - 1 + 1 - 1 = fr.basePointer - 1 := by omega
    rw [this]
    exact listSetAt_get hset

/-- C8 witness at the concrete two-frame state. -/
theorem c8_opReturnValue_witness :
    execOpcode c8State .opReturnValue [] 0 =
      .ok { c8St2 with stack := c8Stk, sp := c8Fr.basePointer - 1 + 1 } ∧
    c8St2.framesIndex = c8State.framesIndex - 1 ∧
    listGetAt c8Stk (c8Fr.basePointer - 1 + 1 - 1) = some (.number 7) :=
  c8_opReturnValue_stack_discipline c8State c8St1 c8St2 [] 0 (.number 7) c8Fr c8Stk
    (by decide) (by decide) (by decide) (by decide)

/-- `skipWhitespaces` does not move past a non-whitespace rune. -/
theorem skipWhitespaces_not_space (fuel : Nat) (c : Char) (cs : List Char)
    (h : unicodeIsSpace c = false) :
    skipWhitespaces fuel ⟨some c, cs⟩ = ⟨some c, cs⟩ := by
  cases fuel with
  | zero => rfl
  | succ n => simp only [skipWhitespaces]; simp [h]

/-- A letter is not whitespace. -/
theorem letter_not_space {c : Char} (h : unicodeIsLetter c = true) :
    unicodeIsSpace c = false := by
  revert h
  simp only [unicodeIsSpace, unicodeIsLetter, Bool.or_eq_false_iff,
    decide_eq_false_iff_not]
  intro h
  refine ⟨⟨⟨⟨⟨?_, ?_⟩, ?_⟩, ?_⟩, ?_⟩, ?_⟩ <;> rintro rfl <;> revert h <;> decide

/-- `readIdentifier` at the end of input. -/
theorem readIdentifier_none (fuel : Nat) (r : List Char) :
    readIdentifier fuel ⟨none, r⟩ = ("", ⟨none, r⟩) := by
  cases fuel <;> rfl

/-- One unfolding of `readIdentifier` on a live rune. -/
theorem readIdentifier_succ (n : Nat) (c : Char) (cs : List Char) :
    readIdentifier (n + 1) ⟨some c, cs⟩ =
      if isAlphaNumeric c then
        (String.mk (c :: (readIdentifier n (lconsume ⟨some c, cs⟩)).1.data),
         (readIdentifier n (lconsume ⟨some c, cs⟩)).2)
      else ("", ⟨some c, cs⟩) := rfl

/-- `readIdentifier` consumes a whole alphanumeric tail, given enough fuel. -/
theorem readIdentifier_all :
    ∀ (cs : List Char) (k : Nat) (c : Char),
      isAlphaNumeric c = true → cs.all isAlphaNumeric = true →
      readIdentifier (cs.length + 1 + k) ⟨some c, cs⟩ =
        (String.mk (c :: cs), ⟨none, []⟩) := by
  intro cs
  induction cs with
  | nil =>
    intro k c hc _
    have hf : ([] : List Char).length + 1 + k = k + 1 := by
      simp [List.length_nil]; omega
    rw [hf, readIdentifier_succ, if_pos hc]
    have : lconsume ⟨some c, []⟩ = (⟨none, []⟩ : LexState) := rfl
    rw [this, readIdentifier_none]
  | cons x xs ih =>
    intro k c hc hall
    rw [List.all_cons, Bool.and_eq_true] at hall
    have hf : (x :: xs).length + 1 + k = (xs.length + 1 + k) + 1 := by
      simp [List.length_cons]; omega
    rw [hf, readIdentifier_succ, if_pos hc]
    have hlc : lconsume ⟨some c, x :: xs⟩ = (⟨some x, xs⟩ : LexState) := rfl
    rw [hlc, ih k x hall.1 hall.2]

/-- `Lexeme` at the end of input. -/
theorem lexemeLoop_none (fuel : Nat) (r : List Char) :
    lexemeLoop fuel ⟨none, r⟩ = [⟨.eof, ""⟩] := by
  cases fuel <;> rfl

/-- One unfolding of `Lexeme` on a live rune. -/
theorem lexemeLoop_succ (n : Nat) (c : Char) (cs : List Char) :
    lexemeLoop (n + 1) ⟨some c, cs⟩ =
      (nextToken (n + 1) ⟨some c, cs⟩).1 ::
        lexemeLoop n (nextToken (n + 1) ⟨some c, cs⟩).2 := rfl

/-- `NextToken` on a letter-headed input: the default branch reads an
identifier and looks it up in the keyword table. -/
theorem nextToken_letter (fuel : Nat) (c : Char) (cs : List Char)
    (hl : unicodeIsLetter c = true) :
    nextToken fuel ⟨some c, cs⟩ =
      (⟨lookupIdentifier (readIdentifier fuel ⟨some c, cs⟩).1,
        (readIdentifier fuel ⟨some c, cs⟩).1⟩,
       (readIdentifier fuel ⟨some c, cs⟩).2) := by
  have hs := skipWhitespaces_not_space fuel c cs (letter_not_space hl)
  simp only [nextToken, hs]
  repeat rw [if_neg (by rintro rfl; revert hl; decide)]
  rw [if_pos hl]

/-- C9 counterexample: `_foo` does not lex as one Identifier —
`NextToken`'s default branch requires `unicode.IsLetter` (underscore is not
a letter), so `_` becomes an Illegal token and `foo` a separate
identifier. -/
theorem c9_counterexample_leading_underscore :
    lexString "_foo" =
      [⟨.illegal, "unknown token: _"⟩, ⟨.identifier, "foo"⟩, ⟨.eof, ""⟩] := by
  decide

/-- C9 (amended): an input that is one lexeme of the shape
letter·(alphanumeric|underscore)* and is no keyword lexes to exactly one
Identifier token (with the lexeme as literal) followed by EOF — but the head
must be a LETTER: on a `_`-headed input `NextToken` emits an Illegal
"unknown token" instead. -/
theorem c9_identifier_lexing :
    (∀ c cs, unicodeIsLetter c = true → cs.all isAlphaNumeric = true →
        lookupIdentifier (String.mk (c :: cs)) = .identifier →
        lexString (String.mk (c :: cs)) =
          [⟨.identifier, String.mk (c :: cs)⟩, ⟨.eof, ""⟩]) ∧
    (∀ fuel cs, nextToken fuel ⟨some '_', cs⟩ =
        (⟨.illegal, "unknown token: _"⟩, lconsume ⟨some '_', cs⟩)) := by
  constructor
  · intro c cs hl hall hkw
    have hd : (String.mk (c :: cs)).data = c :: cs := rfl
    show lexemeLoop ((String.mk (c :: cs)).data.length + 2)
        (lexNew (String.mk (c :: cs))) = _
    rw [hd]
    have hln : lexNew (String.mk (c :: cs)) = (⟨some c, cs⟩ : LexState) := rfl
    have hf : (c :: cs).length + 2 = (cs.length + 2) + 1 := by
      simp [List.length_cons]
    rw [hln, hf, lexemeLoop_succ, nextToken_letter _ c cs hl]
    have hf2 : (cs.length + 2) + 1 = cs.length + 1 + 2 := by omega
    rw [hf2, readIdentifier_all cs 2 c (by simp [isAlphaNumeric, hl]) hall]
    rw [hkw]
    dsimp only
    rw [lexemeLoop_none]
  · intro fuel cs
    have hs := skipWhitespaces_not_space fuel '_' cs (by decide)
    simp only [nextToken, hs]
    rfl

end Talang
